import Mathlib

/-!
# Verification of the asset-registry core (Blockstream/asset_registry)

A shallow embedding, in Lean 4, of the verification / commitment pipeline and
the append-only registry engine of the Liquid asset registry, together with
proofs of the properties claimed in the specification.

Conventions used throughout:

* Machine integers (`u8`, `u32`, …) are modelled as `Nat` with explicit
  reductions `% 2^w` where overflow can occur.
* Rust byte strings (`Vec<u8>`, `&[u8]`) are modelled as `List Nat`
  (each entry a byte value).
* `failure::Error` chains are modelled as `List String`, outermost context
  first; `errors::join_err` joins the chain with `": "`, so the *root cause*
  is the last element of the list.  `bail!(msg)` produces `[msg]` and
  `.context(c)` conses `c` onto the chain.
* Network and subprocess effects (the esplora chain query, the HTTP proof
  fetch, the Google-DNS TXT lookup, the secp256k1 signature verification and
  the post-update hook) are modelled as explicit oracle parameters; all
  deterministic computation (hashing, serialization, parsing, validation,
  registry bookkeeping) is embedded concretely.
-/

set_option maxRecDepth 10000

/-- Result type modelling `errors::Result<T>` = `Result<T, failure::Error>`,
with the error represented as its context chain (`join_err` order). -/
inductive RRes (α : Type) where
  | ok : α → RRes α
  | err : List String → RRes α
deriving DecidableEq, Repr

def RRes.bind {α β : Type} : RRes α → (α → RRes β) → RRes β
  | .ok a, f => f a
  | .err e, _ => .err e

instance : Monad RRes where
  pure := .ok
  bind := RRes.bind

/-- `failure`'s `.context(c)?`: push a context frame onto the error chain. -/
def RRes.ctx {α : Type} (c : String) : RRes α → RRes α
  | .ok a => .ok a
  | .err e => .err (c :: e)

/-! ## Generic helpers: association lists (the file-system directory model) -/

/-- First-match association-list lookup (a directory: at most one file
per path; insertion is guarded by an existence check). -/
def alookup {β : Type} (k : String) : List (String × β) → Option β
  | [] => none
  | p :: t => if p.1 = k then some p.2 else alookup k t

/-- Remove the first entry with key `k` (`fs::remove_file`). -/
def aerase {β : Type} (k : String) : List (String × β) → List (String × β)
  | [] => []
  | p :: t => if p.1 = k then t else p :: aerase k t

/-! ## Bytes and hex -/

/-- Lowercase hex digit for a nibble. -/
def hexDigit (n : Nat) : Char :=
  if n < 10 then Char.ofNat (48 + n) else Char.ofNat (87 + n)

/-- Lowercase hex digits of a byte list (in list order). -/
def hexChars : List Nat → List Char
  | [] => []
  | b :: t => hexDigit (b / 16) :: hexDigit (b % 16) :: hexChars t

/-- Lowercase hex encoding of a byte list (in list order). -/
def bytesToHex (bs : List Nat) : String := ⟨hexChars bs⟩

/-- Value of one hex digit character, if any. -/
def hexDigitVal (c : Char) : Option Nat :=
  if 48 ≤ c.toNat ∧ c.toNat ≤ 57 then some (c.toNat - 48)
  else if 97 ≤ c.toNat ∧ c.toNat ≤ 102 then some (c.toNat - 87)
  else if 65 ≤ c.toNat ∧ c.toNat ≤ 70 then some (c.toNat - 55)
  else none

/-- Hex decoding (the `hex` crate: fails on odd length or non-hex chars). -/
def hexToBytes0 : List Char → Option (List Nat)
  | [] => some []
  | [_] => none
  | c1 :: c2 :: t => do
    let h ← hexDigitVal c1
    let lo ← hexDigitVal c2
    let rest ← hexToBytes0 t
    pure ((h * 16 + lo) :: rest)

def hexToBytes (s : String) : Option (List Nat) := hexToBytes0 s.data

/-- Little-endian serialization of a `u32`. -/
def le32 (n : Nat) : List Nat :=
  [n % 256, n / 256 % 256, n / 65536 % 256, n / 16777216 % 256]

/-- Big-endian serialization of a `u32`. -/
def be32 (n : Nat) : List Nat :=
  [n / 16777216 % 256, n / 65536 % 256, n / 256 % 256, n % 256]

/-- Big-endian serialization of a `u64` (message bit length in SHA-256 padding). -/
def be64 (n : Nat) : List Nat :=
  be32 (n / 4294967296 % 4294967296) ++ be32 (n % 4294967296)

/-! ## SHA-256 (the `bitcoin_hashes` primitives `sha256::Hash` / `sha256d::Hash`) -/

def M32 : Nat := 4294967296

/-- 32-bit right rotation. -/
def rotr32 (n x : Nat) : Nat :=
  ((x >>> n) ||| (x <<< (32 - n))) % M32

def sSig0 (x : Nat) : Nat := (rotr32 7 x) ^^^ (rotr32 18 x) ^^^ (x >>> 3)

def sSig1 (x : Nat) : Nat := (rotr32 17 x) ^^^ (rotr32 19 x) ^^^ (x >>> 10)

def bSig0 (x : Nat) : Nat := (rotr32 2 x) ^^^ (rotr32 13 x) ^^^ (rotr32 22 x)

def bSig1 (x : Nat) : Nat := (rotr32 6 x) ^^^ (rotr32 11 x) ^^^ (rotr32 25 x)

def sha256K : List Nat :=
  [1116352408, 1899447441, 3049323471, 3921009573, 961987163, 1508970993,
   2453635748, 2870763221, 3624381080, 310598401, 607225278, 1426881987,
   1925078388, 2162078206, 2614888103, 3248222580, 3835390401, 4022224774,
   264347078, 604807628, 770255983, 1249150122, 1555081692, 1996064986,
   2554220882, 2821834349, 2952996808, 3210313671, 3336571891, 3584528711,
   113926993, 338241895, 666307205, 773529912, 1294757372, 1396182291,
   1695183700, 1986661051, 2177026350, 2456956037, 2730485921, 2820302411,
   3259730800, 3345764771, 3516065817, 3600352804, 4094571909, 275423344,
   430227734, 506948616, 659060556, 883997877, 958139571, 1322822218,
   1537002063, 1747873779, 1955562222, 2024104815, 2227730452, 2361852424,
   2428436474, 2756734187, 3204031479, 3329325298]

def sha256IV : List Nat :=
  [1779033703, 3144134277, 1013904242, 2773480762,
   1359893119, 2600822924, 528734635, 1541459225]

/-- Big-endian 32-bit words from bytes (length assumed divisible by 4). -/
def bytesToWords : List Nat → List Nat
  | b0 :: b1 :: b2 :: b3 :: t => (((b0 * 256 + b1) * 256 + b2) * 256 + b3) :: bytesToWords t
  | _ => []

def wordsToBytes : List Nat → List Nat
  | [] => []
  | w :: t => be32 w ++ wordsToBytes t

/-- Message-schedule extension: extend the 16 message words to 64.  The
schedule is threaded most-recent-first (`rev.getD 1` is `w[t-2]`,
`rev.getD 6` is `w[t-7]`, `rev.getD 14` is `w[t-15]`, `rev.getD 15` is
`w[t-16]`). -/
def schedExtendRev : Nat → List Nat → List Nat
  | 0, rev => rev
  | n + 1, rev =>
    let nw := (sSig1 (rev.getD 1 0) + rev.getD 6 0 +
               sSig0 (rev.getD 14 0) + rev.getD 15 0) % M32
    schedExtendRev n (nw :: rev)

/-- One SHA-256 round on the 8-word working state. -/
def sha256Round (st : List Nat) (kw : Nat) : List Nat :=
  match st with
  | [a, b, c, d, e, f, g, h] =>
    let t1 := (h + bSig1 e + ((e &&& f) ^^^ ((M32 - 1 - e) &&& g)) + kw) % M32
    let t2 := (bSig0 a + ((a &&& b) ^^^ (a &&& c) ^^^ (b &&& c))) % M32
    [(t1 + t2) % M32, a, b, c, (d + t1) % M32, e, f, g]
  | _ => st

/-- Compress one 64-byte block into the 8-word chaining state. -/
def sha256Compress (h : List Nat) (block : List Nat) : List Nat :=
  let w := (schedExtendRev 48 (bytesToWords block).reverse).reverse
  let kw := (sha256K.zip w).map (fun p => (p.1 + p.2) % M32)
  let st := kw.foldl sha256Round h
  (h.zip st).map (fun p => (p.1 + p.2) % M32)

/-- Split into 64-byte blocks (fuelled by the list length, which every step
strictly consumes, so the fuel never runs out). -/
def chunks64Go : Nat → List Nat → List (List Nat)
  | 0, _ => []
  | _, [] => []
  | fuel + 1, l => (l.take 64) :: chunks64Go fuel (l.drop 64)

def chunks64 (l : List Nat) : List (List Nat) := chunks64Go l.length l

/-- SHA-256 padding: `0x80`, zeros to 56 mod 64, 64-bit big-endian bit length. -/
def sha256Pad (msg : List Nat) : List Nat :=
  let l := msg.length
  let zeros := (119 - (l % 64)) % 64
  msg ++ [128] ++ List.replicate zeros 0 ++ be64 (l * 8)

/-- `sha256::Hash::hash`: SHA-256 of a byte string, as 32 bytes. -/
def sha256 (msg : List Nat) : List Nat :=
  wordsToBytes ((chunks64 (sha256Pad msg)).foldl sha256Compress sha256IV)

/-- `sha256d::Hash::hash`: double SHA-256. -/
def sha256d (msg : List Nat) : List Nat := sha256 (sha256 msg)

/-! ## JSON values (`serde_json::Value`) and canonical serialization

`serde_json::Value` maps are `BTreeMap<String, Value>`, so a parsed value
keeps its object keys lexicographically sorted (by UTF-8 byte order) as a
type invariant, and `serde_json::to_string` emits them in that order — this
is the "serde_json sorts keys lexicographically" canonicalization that
`contract_json_hash` relies on.  We model numbers as integers (every number
appearing in a contract recognized by the schema is one). -/

mutual

inductive Json where
  | null : Json
  | bool : Bool → Json
  | num : Int → Json
  | str : String → Json
  | arr : JsonList → Json
  | obj : JsonObj → Json

/-- The element list of a JSON array. -/
inductive JsonList where
  | nil : JsonList
  | cons : Json → JsonList → JsonList

/-- The key-value list of a JSON object (in `BTreeMap` iteration order). -/
inductive JsonObj where
  | nil : JsonObj
  | cons : String → Json → JsonObj → JsonObj

end

/-- Build a `JsonObj` from a list of key-value pairs. -/
def JsonObj.ofList (l : List (String × Json)) : JsonObj :=
  l.foldr (fun p t => .cons p.1 p.2 t) .nil

/-- Build a JSON object value from a list of key-value pairs. -/
def Json.mkObj (l : List (String × Json)) : Json := .obj (JsonObj.ofList l)

/-- UTF-8 encoding of one character. -/
def utf8Char (c : Char) : List Nat :=
  let n := c.toNat
  if n < 128 then [n]
  else if n < 2048 then [192 + n / 64, 128 + n % 64]
  else if n < 65536 then [224 + n / 4096, 128 + n / 64 % 64, 128 + n % 64]
  else [240 + n / 262144, 128 + n / 4096 % 64, 128 + n / 64 % 64, 128 + n % 64]

/-- UTF-8 encoding of a character list. -/
def utf8Bytes (cs : List Char) : List Nat := (cs.map utf8Char).flatten

/-- UTF-8 bytes of a string (Rust `str::as_bytes`). -/
def strBytes (s : String) : List Nat := utf8Bytes s.data

/-- serde_json string escaping: `"`/`\` escaped, control chars escaped
(`\b`, `\t`, `\n`, `\f`, `\r`, otherwise `\u00XX`), everything else raw. -/
def jsonEscapeChar (c : Char) : List Char :=
  if c = Char.ofNat 34 then [Char.ofNat 92, Char.ofNat 34]
  else if c = Char.ofNat 92 then [Char.ofNat 92, Char.ofNat 92]
  else if c.toNat = 8 then [Char.ofNat 92, 'b']
  else if c.toNat = 9 then [Char.ofNat 92, 't']
  else if c.toNat = 10 then [Char.ofNat 92, 'n']
  else if c.toNat = 12 then [Char.ofNat 92, 'f']
  else if c.toNat = 13 then [Char.ofNat 92, 'r']
  else if c.toNat < 32 then
    [Char.ofNat 92, 'u', '0', '0', hexDigit (c.toNat / 16), hexDigit (c.toNat % 16)]
  else [c]

/-- Serialized JSON string literal, double quotes included. -/
def serStr (s : String) : List Char :=
  Char.ofNat 34 :: (s.data.map jsonEscapeChar).flatten ++ [Char.ofNat 34]

mutual

/-- `serde_json::to_string`: compact serialization, no whitespace, object keys
emitted in stored (sorted) order. -/
def serJson : Json → List Char
  | .null => "null".data
  | .bool true => "true".data
  | .bool false => "false".data
  | .num n => (toString n).data
  | .str s => serStr s
  | .arr es => Char.ofNat 91 :: serArr es ++ [Char.ofNat 93]
  | .obj kvs => Char.ofNat 123 :: serObj kvs ++ [Char.ofNat 125]

def serArr : JsonList → List Char
  | .nil => []
  | .cons e .nil => serJson e
  | .cons e (.cons e2 t) => serJson e ++ ',' :: serArr (.cons e2 t)

def serObj : JsonObj → List Char
  | .nil => []
  | .cons k v .nil => serStr k ++ ':' :: serJson v
  | .cons k v (.cons k2 v2 t) => serStr k ++ ':' :: serJson v ++ ',' :: serObj (.cons k2 v2 t)

end

/-! ## Consensus serialization and the asset-id derivation

`asset.rs` derives the asset id with `AssetId::generate_asset_entropy` and
`AssetId::from_entropy` from the `elements` crate:

* `generate_asset_entropy(prevout, contract_hash)` =
  `fast_merkle_root([SHA256d(serialize(prevout)), contract_hash])`, and
* `from_entropy(entropy)` = `fast_merkle_root([entropy, 0^32])`,

where the fast Merkle root of two 32-byte leaves is a single application of
the SHA-256 compression function to the 64-byte concatenation (a "midstate":
no padding, no length suffix, no second round).  Both equalities are checked
below against the unit-test vectors shipped in `util.rs`
(`test_asset_entropy` / `test_asset_id`).  Hashes are kept in internal byte
order; `to_hex`/`from_hex` on hash newtypes (txids, asset ids, contract
hashes) display the bytes reversed. -/

/-- Display-order hex of an internal-order hash (bitcoin convention). -/
def toHexRev (bs : List Nat) : String := bytesToHex bs.reverse

/-- Internal-order bytes from display-order hex (`FromHex` on hash types). -/
def fromHexRev (s : String) : List Nat := ((hexToBytes s).getD []).reverse

/-- `elements::OutPoint` (txid in internal byte order, vout a `u32`). -/
structure OutPoint where
  txid : List Nat
  vout : Nat
deriving DecidableEq, Repr

/-- `bitcoin::consensus::encode::serialize(prevout)`: txid bytes then vout LE. -/
def serializeOutPoint (o : OutPoint) : List Nat := o.txid ++ le32 (o.vout % M32)

/-- `fast_merkle_root` of exactly two 32-byte leaves: one SHA-256 compression
of the 64-byte concatenation (midstate, no padding). -/
def fast_merkle_root2 (l r : List Nat) : List Nat :=
  wordsToBytes (sha256Compress sha256IV (l ++ r))

/-- `AssetId::generate_asset_entropy` (elements crate):
fast Merkle root of `[SHA256d(serialize(prevout)), contract_hash]`. -/
def generate_asset_entropy (prevout : OutPoint) (contract_hash : List Nat) : List Nat :=
  fast_merkle_root2 (sha256d (serializeOutPoint prevout)) contract_hash

/-- `AssetId::from_entropy` (elements crate): fast Merkle root of
`[entropy, 0^32]`. -/
def from_entropy (entropy : List Nat) : List Nat :=
  fast_merkle_root2 entropy (List.replicate 32 0)

/-- `asset::contract_json_hash`: single SHA-256 of the canonical JSON
serialization of the contract, kept as `ContractHash` inner bytes.
(`serde_json::to_string` on an in-memory `Value` cannot fail, so the
`Result` wrapper is omitted.) -/
def contract_json_hash (contract : Json) : List Nat :=
  sha256 (utf8Bytes (serJson contract))

/-! ## Domain validation (`util::is_valid_domain`)

`is_valid_domain` first converts the domain with the `idna` crate
(UTS #46 `to_ascii`, `use_std3_ascii_rules = false`,
`transitional_processing = true`, `verify_dns_length = true`), then checks
label structure.  The IDNA conversion lowercases ASCII, Punycode-encodes
non-ASCII labels and enforces DNS length limits. -/

/-- Punycode digit (RFC 3492): 0–25 → `a`–`z`, 26–35 → `0`–`9`. -/
def punyDigit (d : Nat) : Char :=
  if d < 26 then Char.ofNat (97 + d) else Char.ofNat (48 + d - 26)

/-- Bias adaptation division loop of RFC 3492 `adapt` (fuelled; the value
shrinks by a factor 35 each step, so the fuel is never exhausted). -/
def punyAdaptGo : Nat → Nat → Nat → Nat
  | 0, delta, k => k + 36 * delta / (delta + 38)
  | f + 1, delta, k =>
    if delta > 455 then punyAdaptGo f (delta / 35) (k + 36)
    else k + 36 * delta / (delta + 38)

/-- RFC 3492 `adapt(delta, numpoints, firsttime)`. -/
def punyAdapt (delta numpoints : Nat) (firsttime : Bool) : Nat :=
  let d1 := if firsttime then delta / 700 else delta / 2
  punyAdaptGo 64 (d1 + d1 / numpoints) 0

/-- Variable-length integer encoding of one delta (RFC 3492 inner loop). -/
def punyEncodeDigits : Nat → Nat → Nat → Nat → List Char → List Char
  | 0, _, _, _, acc => acc
  | f + 1, q, bias, k, acc =>
    let t := if k ≤ bias + 1 then 1 else if k ≥ bias + 26 then 26 else k - bias
    if q < t then acc ++ [punyDigit q]
    else punyEncodeDigits f ((q - t) / (36 - t)) bias (k + 36)
      (acc ++ [punyDigit (t + (q - t) % (36 - t))])

/-- One pass of the RFC 3492 encoder over the input for code point `m`:
threads `(delta, bias, h, out)` through the input list. -/
def punyPass (m b : Nat) : List Nat → Nat × Nat × Nat × List Char → Nat × Nat × Nat × List Char
  | [], st => st
  | c :: cs, (delta, bias, h, out) =>
    if c < m then punyPass m b cs (delta + 1, bias, h, out)
    else if c = m then
      let out2 := punyEncodeDigits 64 delta bias 36 out
      punyPass m b cs (0, punyAdapt delta (h + 1) (h = b), h + 1, out2)
    else punyPass m b cs (delta, bias, h, out)

/-- Outer loop of the RFC 3492 encoder (fuelled by the input length: every
iteration encodes at least one code point). -/
def punyOuter (cps : List Nat) : Nat → Nat → Nat → Nat → Nat → Nat → List Char → List Char
  | 0, _, _, _, _, _, out => out
  | f + 1, n, delta, bias, h, b, out =>
    if h ≥ cps.length then out
    else
      let m := (cps.filter (fun c => n ≤ c)).foldl min 1114112
      let delta2 := delta + (m - n) * (h + 1)
      let (d3, bias3, h3, out3) := punyPass m b cps (delta2, bias, h, out)
      punyOuter cps f (m + 1) (d3 + 1) bias3 h3 b out3

/-- RFC 3492 Punycode encoding of a code-point sequence. -/
def punycodeEncode (cps : List Nat) : List Char :=
  let basic := (cps.filter (fun c => c < 128)).map Char.ofNat
  let b := basic.length
  let out := if b > 0 then basic ++ ['-'] else basic
  punyOuter cps (cps.length + 1) 128 0 72 b b out

/-- `str::split` on a separator character. -/
def splitChar (sep : Char) : List Char → List (List Char)
  | [] => [[]]
  | c :: t =>
    if c = sep then [] :: splitChar sep t
    else match splitChar sep t with
      | h :: r => (c :: h) :: r
      | [] => [[c]]

/-- Join labels with `.`. -/
def joinDot : List (List Char) → List Char
  | [] => []
  | [l] => l
  | l :: l2 :: t => l ++ '.' :: joinDot (l2 :: t)

/-- UTS #46 character mapping, modelled from the `idna` crate (an external
dependency) for the character repertoire exercised in this development:
ASCII uppercase maps to lowercase; all other ASCII is valid (or
`disallowed_STD3_valid`, kept because `use_std3_ascii_rules = false`);
`ς` maps to `σ` (transitional processing); lowercase Greek letters are
valid.  Characters outside this repertoire are treated as disallowed. -/
def uts46MapChar (c : Char) : Option (List Char) :=
  let n := c.toNat
  if 65 ≤ n ∧ n ≤ 90 then some [Char.ofNat (n + 32)]
  else if n < 128 then some [c]
  else if n = 962 then some [Char.ofNat 963]
  else if (940 ≤ n ∧ n ≤ 974) then some [c]
  else none

/-- Convert one label to its ASCII (Punycode) form. -/
def labelToAscii (l : List Char) : List Char :=
  if l.all (fun c => c.toNat < 128) then l
  else 'x' :: 'n' :: '-' :: '-' :: punycodeEncode (l.map Char.toNat)

/-- `util::idna_to_ascii` = `idna::uts46::to_ascii` with
`use_std3_ascii_rules = false`, `transitional_processing = true`,
`verify_dns_length = true`.  Modelled from the `idna` crate: map the
characters (NFC normalization is the identity on the modelled repertoire),
split into labels, Punycode-encode non-ASCII labels, then verify DNS length
limits (labels 1–63 bytes, total 1–253 bytes, a trailing empty root label
being allowed). -/
def idna_to_ascii (domain : String) : Option (List Char) := do
  let mapped ← domain.data.mapM uts46MapChar
  let labels0 := splitChar '.' mapped.flatten
  let labels := labels0.map labelToAscii
  let checked := if labels.getLast? = some [] then labels.dropLast else labels
  if checked.any (fun l => l.length = 0 ∨ l.length > 63) then none
  else
    let total := (joinDot checked).length
    if total = 0 ∨ total > 253 then none
    else some (joinDot labels)

/-- ASCII alphanumeric (`[[:alnum:]]` of the `regex` crate). -/
def isAlnumAscii (c : Char) : Bool :=
  (48 ≤ c.toNat ∧ c.toNat ≤ 57) ∨ (65 ≤ c.toNat ∧ c.toNat ≤ 90) ∨ (97 ≤ c.toNat ∧ c.toNat ≤ 122)

/-- The `DOMAIN_LABEL` regex set: `^[[:alnum:]]+$` or
`^[[:alnum:]]+[[:alnum:]-]*[[:alnum:]]+$`. -/
def domainLabelOk (l : List Char) : Bool :=
  (!l.isEmpty && l.all isAlnumAscii) ||
  (match l with
   | [] => false
   | c :: t =>
     match t.reverse with
     | [] => false
     | d :: mid => isAlnumAscii c && isAlnumAscii d &&
        (mid.reverse.all fun x => isAlnumAscii x || x = '-'))

def isDigitC (c : Char) : Bool := 48 ≤ c.toNat ∧ c.toNat ≤ 57

/-- Split a char list at the first `e` (for the f64 grammar). -/
def splitAtE : List Char → List Char × Option (List Char)
  | [] => ([], none)
  | c :: t =>
    if c = 'e' then ([], some t)
    else
      let (m, e) := splitAtE t
      (c :: m, e)

/-- Mantissa of the Rust `f64::from_str` grammar:
`Digit+ | Digit+ '.' Digit* | Digit* '.' Digit+`. -/
def f64MantissaOk (m : List Char) : Bool :=
  match splitChar '.' m with
  | [d] => d ≠ [] ∧ d.all isDigitC
  | [d1, d2] => (d1 ≠ [] ∨ d2 ≠ []) ∧ d1.all isDigitC ∧ d2.all isDigitC
  | _ => false

/-- Exponent: `Sign? Digit+`. -/
def f64ExpOk (e : List Char) : Bool :=
  let body := match e with
    | '+' :: t => t
    | '-' :: t => t
    | t => t
  body ≠ [] ∧ body.all isDigitC

/-- Rust `str::parse::<f64>()` acceptance (the grammar of
`f64::from_str`: optional sign; `inf`/`infinity`/`nan` case-insensitive;
or a decimal number with optional exponent). -/
def parsesAsF64 (l : List Char) : Bool :=
  let lower := l.map Char.toLower
  let body := match lower with
    | '+' :: t => t
    | '-' :: t => t
    | t => t
  if body = "inf".data ∨ body = "infinity".data ∨ body = "nan".data then true
  else
    let (m, e) := splitAtE body
    f64MantissaOk m && (match e with | none => true | some ex => f64ExpOk ex)

/-- `util::is_valid_domain`. -/
def is_valid_domain (domain : String) : Bool :=
  match domain.data with
  | '.' :: _ => false
  | _ =>
    match idna_to_ascii domain with
    | none => false
    | some d =>
      let labels0 := splitChar '.' d
      let labels := if d.getLast? = some '.' then labels0.dropLast else labels0
      if labels.length > 127 then false
      else if labels.length < 2 then false
      else
        match labels.reverse with
        | [] => false
        | tld :: _ =>
          if parsesAsF64 tld then false
          else (labels.all domainLabelOk)

/-! ## The data model (`asset.rs`, `entity.rs`) -/

/-- `RRes.ensure` with a decidable proposition (`ensure!(cond, msg)`). -/
def RRes.ensureP (p : Prop) [Decidable p] (msg : String) : RRes Unit :=
  if p then .ok () else .err [msg]

/-- `entity::AssetEntity` (the only variant is a domain name). -/
inductive AssetEntity where
  | DomainName : String → AssetEntity
deriving DecidableEq, Repr

/-- The `Display` impl of `AssetEntity` (used in the namespace filename). -/
def AssetEntity.display : AssetEntity → String
  | .DomainName domain => "domain:" ++ domain

/-- `asset::DomainVerificationMethod`. -/
inductive DomainVerificationMethod where
  | Dns : DomainVerificationMethod
  | Http : DomainVerificationMethod
deriving DecidableEq, Repr

/-- Modelled from the spec: `util::TxInput` is absent from the provided
sources; the spec defines it as the pair (txid, vin) identifying the input
that performed the issuance. -/
structure TxInput where
  txid : List Nat
  vin : Nat
deriving DecidableEq, Repr

/-- `asset::AssetFields` — the issuer-supplied fields. -/
structure AssetFields where
  version : Nat
  issuer_pubkey : List Nat
  name : String
  ticker : Option String
  collection : Option String
  precision : Nat
  entity : AssetEntity
deriving DecidableEq, Repr

/-- `asset::Asset` — the persisted record. -/
structure Asset where
  asset_id : List Nat
  contract : Json
  issuance_txin : TxInput
  issuance_prevout : OutPoint
  domain_verification_method : Option DomainVerificationMethod
  fields : AssetFields
  signature : Option String

/-! ## Strictness of contract deserialization (`AssetFields::from_contract`)

`from_contract` is `serde_json::from_value::<AssetFields>(contract)`.  The
derive on `AssetFields` carries no `#[serde(deny_unknown_fields)]`, so the
generated deserializer follows serde's default behaviour: unrecognized map
keys are skipped and ignored.  The embedding below reproduces the derive
field by field: `version` a `u8`, `issuer_pubkey` hex-decoded from a string
(`serde_from_hex`), `name` a string, `ticker`/`collection` optional strings
(absent or `null` giving `None`), `precision` a `u8` defaulting to 0 when
absent (`default_precision`), and `entity` an externally tagged enum whose
only variant is `{"domain": <string>}` (braces elided). -/

/-- Lookup of a key in a JSON object (serde_json maps have unique keys). -/
def jlookup (k : String) : JsonObj → Option Json
  | .nil => none
  | .cons k2 v t => if k2 = k then some v else jlookup k t

/-- Deserialize a `u8` field. -/
def parseU8 (fieldName : String) : Option Json → RRes Nat
  | some (.num n) =>
    if 0 ≤ n ∧ n ≤ 255 then .ok n.toNat
    else .err ["invalid value: integer out of range for u8 field " ++ fieldName]
  | some _ => .err ["invalid type for field " ++ fieldName]
  | none => .err ["missing field " ++ fieldName]

/-- Deserialize a required `String` field. -/
def parseStr (fieldName : String) : Option Json → RRes String
  | some (.str s) => .ok s
  | some _ => .err ["invalid type for field " ++ fieldName]
  | none => .err ["missing field " ++ fieldName]

/-- Deserialize an `Option<String>` field (absent or `null` is `None`). -/
def parseOptStr (fieldName : String) : Option Json → RRes (Option String)
  | none => .ok none
  | some .null => .ok none
  | some (.str s) => .ok (some s)
  | some _ => .err ["invalid type for field " ++ fieldName]

/-- Deserialize the `AssetEntity` enum: an externally tagged map with the
single variant key `domain` holding a string. -/
def parseEntity : Option Json → RRes AssetEntity
  | some (.obj (.cons k (.str s) .nil)) =>
    if k = "domain" then .ok (.DomainName s)
    else .err ["unknown variant in field entity"]
  | some _ => .err ["invalid type for field entity"]
  | none => .err ["missing field entity"]

/-- The field-wise deserializer generated by the serde derive, applied to
the values found for the seven recognized keys (any other key is never
consulted — serde's default behaviour without `deny_unknown_fields`). -/
def fromContractCore (fVersion fPubkey fName fTicker fCollection fPrecision fEntity :
    Option Json) : RRes AssetFields := do
  let version ← parseU8 "version" fVersion
  let pkHex ← parseStr "issuer_pubkey" fPubkey
  let issuer_pubkey ← match hexToBytes pkHex with
    | some bs => RRes.ok bs
    | none => RRes.err ["invalid hex in field issuer_pubkey"]
  let name ← parseStr "name" fName
  let ticker ← parseOptStr "ticker" fTicker
  let collection ← parseOptStr "collection" fCollection
  let precision ← match fPrecision with
    | none => RRes.ok 0
    | v => parseU8 "precision" v
  let entity ← parseEntity fEntity
  pure ⟨version, issuer_pubkey, name, ticker, collection, precision, entity⟩

/-- `AssetFields::from_contract` = `serde_json::from_value` with the derived
(non-strict) deserializer: unrecognized keys are ignored. -/
def AssetFields.from_contract (contract : Json) : RRes AssetFields :=
  match contract with
  | .obj kvs =>
    fromContractCore (jlookup "version" kvs) (jlookup "issuer_pubkey" kvs)
      (jlookup "name" kvs) (jlookup "ticker" kvs) (jlookup "collection" kvs)
      (jlookup "precision" kvs) (jlookup "entity" kvs)
  | _ => .err ["invalid type: contract is not a JSON object"]

/-! ## Field validation (`AssetFields::validate`) -/

/-- `RE_NAME` / `RE_COLLECTION`: `[[:ascii:]]` repeated 1–255 times,
anchored. -/
def re_ascii_1_255 (s : String) : Bool :=
  1 ≤ s.data.length && s.data.length ≤ 255 && s.data.all (fun c => c.toNat ≤ 127)

/-- `RE_TICKER`: 3–24 characters drawn from `a-zA-Z0-9.-`, anchored. -/
def re_ticker_ok (s : String) : Bool :=
  3 ≤ s.data.length && s.data.length ≤ 24 &&
    s.data.all (fun c => isAlnumAscii c || c = '.' || c = '-')

/-- Modelled from the spec: `util::verify_pubkey` is absent from the provided
sources; the spec requires that `issuer_pubkey` "parses as a compressed
secp256k1 public key", i.e. 33 bytes with a `0x02`/`0x03` prefix (membership
of the x-coordinate on the curve is delegated to libsecp256k1 and abstracted
away here). -/
def verify_pubkey (pk : List Nat) : RRes Unit :=
  RRes.ensureP (pk.length = 33 ∧ (pk.headD 0 = 2 ∨ pk.headD 0 = 3)) "invalid public key"

/-- Modelled from the spec: `util::verify_domain_name` is absent from the
provided sources; per the spec the entity domain must pass "the domain
validator", i.e. `is_valid_domain`. -/
def verify_domain_name (domain : String) : RRes Unit :=
  RRes.ensureP (is_valid_domain domain = true) "invalid domain name"

/-- `AssetFields::validate`. -/
def AssetFields.validate (f : AssetFields) : RRes Unit := do
  RRes.ensureP (f.version = 0) "unknown `version`"
  RRes.ensureP (f.precision ≤ 8) "`precision` out of range"
  RRes.ensureP (re_ascii_1_255 f.name = true) "invalid `name`"
  (match f.ticker with
   | some t => RRes.ensureP (re_ticker_ok t = true) "invalid `ticker`"
   | none => RRes.ok ())
  (match f.collection with
   | some c => RRes.ensureP (re_ascii_1_255 c = true) "invalid `collection`"
   | none => RRes.ok ())
  RRes.ctx "invalid `issuer_pubkey`" (verify_pubkey f.issuer_pubkey)
  match f.entity with
  | .DomainName domain => RRes.ctx "invalid `entity` domain name" (verify_domain_name domain)

/-! ## The commitment pipeline (`asset.rs`) -/

/-- The asset id committing to a prevout and a contract: the asset-tag of
the entropy of the issuance prevout and the contract hash. -/
def derivedIdFrom (prevout : OutPoint) (contract : Json) : List Nat :=
  from_entropy (generate_asset_entropy prevout (contract_json_hash contract))

/-- The asset id derived from a record's own prevout and contract. -/
def derivedAssetId (asset : Asset) : List Nat :=
  derivedIdFrom asset.issuance_prevout asset.contract

/-- `asset::verify_asset_commitment`: the asset id must commit to the
contract and prevout. -/
def verify_asset_commitment (asset : Asset) : RRes Unit :=
  let contract_hash := contract_json_hash asset.contract
  let entropy := generate_asset_entropy asset.issuance_prevout contract_hash
  let asset_id := from_entropy entropy
  RRes.ensureP (asset.asset_id = asset_id) "invalid asset commitment"

/-- `asset::verify_asset_fields`: with a signature present the update path is
disabled; otherwise the flattened fields must equal the fields parsed from
the committed contract. -/
def verify_asset_fields (asset : Asset) : RRes Unit :=
  match asset.signature with
  | some _ => .err ["updates are disabled"]
  | none =>
    match AssetFields.from_contract asset.contract with
    | .err e => .err e
    | .ok f => RRes.ensureP (asset.fields = f) "fields mismatch commitment"

/-! ## Bitcoin signed messages (`util.rs`) -/

/-- Bitcoin varint serialization (`serialize(&VarInt(n))`). -/
def varint (n : Nat) : List Nat :=
  if n < 253 then [n]
  else if n < 65536 then [253, n % 256, n / 256 % 256]
  else if n < 4294967296 then 254 :: le32 n
  else 255 :: (le32 (n % 4294967296) ++ le32 (n / 4294967296 % 4294967296))

/-- `util::bitcoin_signed_msg_hash`:
`SHA256d(0x18 || "Bitcoin Signed Message:\n" || varint(len) || msg)`. -/
def bitcoin_signed_msg_hash (msg : String) : List Nat :=
  sha256d ((24 :: strBytes "Bitcoin Signed Message:\n") ++
           varint (strBytes msg).length ++ strBytes msg)

/-- Oracle abstracting libsecp256k1 ECDSA verification (`ec.verify`): takes
the public key bytes, the 64-byte compact signature and the 32-byte message
hash, and decides validity.  The curve arithmetic is an external library and
is not re-modelled. -/
def EcVerify : Type := List Nat → List Nat → List Nat → Bool

/-- `secp256k1::PublicKey::from_slice` acceptance (shape only: 33 bytes with
prefix 2/3 or 65 bytes with prefix 4/6/7; curve membership abstracted). -/
def secpPubkeyParses (pk : List Nat) : Bool :=
  (pk.length = 33 && (pk.headD 0 = 2 || pk.headD 0 = 3)) ||
  (pk.length = 65 && (pk.headD 0 = 4 || pk.headD 0 = 6 || pk.headD 0 = 7))

/-- `util::verify_bitcoin_msg`: a 65-byte signature has its leading flag byte
discarded, anything else is passed to `Signature::from_compact` unchanged
(which requires exactly 64 bytes). -/
def verify_bitcoin_msg (ec : EcVerify) (pubkey signature : List Nat) (msg : String) : RRes Unit :=
  let signature := if signature.length = 65 then signature.drop 1 else signature
  if !secpPubkeyParses pubkey then .err ["malformed public key"]
  else if signature.length ≠ 64 then .err ["malformed signature"]
  else if ec pubkey signature (bitcoin_signed_msg_hash msg) then .ok ()
  else .err ["signature veritification failed", "signature failed verification"]

/-- `asset::format_deletion_sig_msg`. -/
def format_deletion_sig_msg (asset : Asset) : String :=
  "remove " ++ toHexRev asset.asset_id ++ " from registry"

/-- `Asset::verify_deletion`. -/
def Asset.verify_deletion (asset : Asset) (signature : List Nat) (ec : EcVerify) : RRes Unit :=
  verify_bitcoin_msg ec asset.fields.issuer_pubkey signature (format_deletion_sig_msg asset)

/-! ## Entity linkage (`entity.rs`) -/

/-- A TXT record of the Google-DNS JSON answer. -/
structure TxtRecord where
  name : String
  dns_type : Nat
  ttl : Nat
  data : String
deriving DecidableEq, Repr

/-- `entity::txt_lookup` with the network abstracted: `none` models a DNS
response without an `Answer` member (source error text:
`'Answer' missing from response.`), `some recs` a response whose `Answer`
member parses as the record list. -/
def txt_lookup (response : Option (List TxtRecord)) : RRes (List TxtRecord) :=
  match response with
  | none => .err ["Answer missing from response."]
  | some t => .ok t

/-- The TXT record contents expected by `verify_domain_link_dns`
(`liquid-asset-verification=` then the asset id hex, a comma, and the ticker
or the empty string). -/
def expectedDnsBody (asset : Asset) : String :=
  "liquid-asset-verification=" ++ toHexRev asset.asset_id ++ "," ++
    (asset.fields.ticker.getD "")

/-- The apex domain queried by `verify_domain_link_dns`: the last two labels
of the supplied domain, joined with a dot. -/
def apexDomain (domain : String) : String :=
  let labels := splitChar '.' domain.data
  ⟨(labels.getD (labels.length - 2) []) ++ '.' :: (labels.getLastD [])⟩

/-- `entity::verify_domain_link_dns`, with the DNS lookup as an oracle keyed
by the queried name. -/
def verify_domain_link_dns (asset : Asset) (domain : String)
    (dns : String → Option (List TxtRecord)) : RRes Unit :=
  let labels := splitChar '.' domain.data
  if labels.length ≤ 1 then .err ["domain must have at least two labels"]
  else
    match txt_lookup (dns (apexDomain domain)) with
    | .err e => .err e
    | .ok txt_records =>
      if txt_records.any (fun r => expectedDnsBody asset = r.data) then .ok ()
      else .err ["failed to find a TXT record for asset " ++ toHexRev asset.asset_id ++
                 " at domain name " ++ domain]

/-- Network oracles for entity-link verification: the HTTP well-known-file
fetch (`verify_domain_link_http`, an HTTP GET) and the Google-DNS TXT
response, both external effects. -/
structure NetOracles where
  httpProof : Asset → String → RRes Unit
  dnsTxt : String → Option (List TxtRecord)

/-- `entity::verify_asset_link`: validate the domain name, then dispatch on
the issuer-selected verification method (HTTP by default). -/
def verify_asset_link (asset : Asset) (net : NetOracles) : RRes Unit :=
  match asset.fields.entity with
  | .DomainName domain =>
    match RRes.ctx "invalid domain name" (verify_domain_name domain) with
    | .err e => .err e
    | .ok _ =>
      match asset.domain_verification_method.getD .Http with
      | .Http => net.httpProof asset domain
      | .Dns => verify_domain_link_dns asset domain net.dnsTxt

/-! ## The verification pipeline (`Asset::verify`) -/

/-- `Asset::verify(chain?)`: field syntax, issuance commitment, fields ↔
contract consistency, optionally the on-chain issuance (`chain.rs`,
abstracted as an oracle since it is an HTTP client), then the entity link. -/
def Asset.verify (asset : Asset) (chain : Option (Asset → RRes Unit))
    (net : NetOracles) : RRes Unit := do
  asset.fields.validate
  RRes.ctx "failed verifying issuance commitment" (verify_asset_commitment asset)
  RRes.ctx "failed verifying asset fields" (verify_asset_fields asset)
  (match chain with
   | some c => RRes.ctx "failed verifying on-chain issuance" (c asset)
   | none => RRes.ok ())
  RRes.ctx "failed verifying linked entity" (verify_asset_link asset net)

/-- `Asset::validate_contract`. -/
def Asset.validate_contract (contract : Json) (contract_hash : List Nat) : RRes Unit := do
  let f ← AssetFields.from_contract contract
  f.validate
  let expected_hash := contract_json_hash contract
  RRes.ensureP (expected_hash = contract_hash)
    ("contract hash mismatch, expected " ++ toHexRev expected_hash)

/-! ## The registry engine (`registry.rs`)

The registry state is the relevant slice of the filesystem: the shard tree
of asset record files (the shard directory is a function of the file name,
so the name alone identifies the file) and the `_map` directory of
namespace-claim files.  Both directories are modelled as association lists
keyed by file name; the hook subprocess is an oracle (`RRes Unit`, with
`.ok ()` also covering the no-hook-configured case), and filesystem I/O
itself is assumed to succeed (I/O `Result`s are not modelled). -/

structure RegistryState where
  assetFiles : List (String × Asset)
  nsFiles : List (String × String)

/-- `registry::make_unique_ns_filename`: the namespace-claim file name
`ticker` `@` `entity` (the entity rendered through its `Display` impl). -/
def make_unique_ns_filename (entity : AssetEntity) (ticker : Option String) : Option String :=
  ticker.map (fun t => t ++ "@" ++ entity.display)

/-- The asset record file name (`AssetFileHandle::new`). -/
def assetFileName (asset : Asset) : String := toHexRev asset.asset_id ++ ".json"

/-- The namespace-claim path of an asset, if it carries a ticker. -/
def nsPath (asset : Asset) : Option String :=
  make_unique_ns_filename asset.fields.entity asset.fields.ticker

/-- `AssetFileHandle::exists`. -/
def fhExists (s : RegistryState) (asset : Asset) : Bool :=
  (alookup (assetFileName asset) s.assetFiles).isSome

/-- `AssetFileHandle::ns_exists`. -/
def fhNsExists (s : RegistryState) (asset : Asset) : Bool :=
  match nsPath asset with
  | none => false
  | some k => (alookup k s.nsFiles).isSome

/-- `AssetFileHandle::write`: write the record file, then the
namespace-claim file (whose content is the asset id hex). -/
def fhWrite (s : RegistryState) (asset : Asset) : RegistryState :=
  { assetFiles := (assetFileName asset, asset) :: s.assetFiles,
    nsFiles := match nsPath asset with
      | none => s.nsFiles
      | some k => (k, toHexRev asset.asset_id) :: s.nsFiles }

/-- `AssetFileHandle::delete`: remove each of the two files if present. -/
def fhDelete (s : RegistryState) (asset : Asset) : RegistryState :=
  { assetFiles :=
      if fhExists s asset then aerase (assetFileName asset) s.assetFiles
      else s.assetFiles,
    nsFiles := match nsPath asset with
      | none => s.nsFiles
      | some k =>
        if (alookup k s.nsFiles).isSome then aerase k s.nsFiles else s.nsFiles }

/-- `Registry::load` (point lookup by asset id). -/
def Registry.load (s : RegistryState) (asset_id : List Nat) : Option Asset :=
  alookup (bytesToHex asset_id.reverse ++ ".json") s.assetFiles

/-- `Registry::write`: verify (with the chain), refuse updates and namespace
collisions, persist, then run the hook — deleting both files again and
propagating the error if the hook fails.  Returns the result together with
the final filesystem state. -/
def Registry.write (s : RegistryState) (asset : Asset) (chain : Asset → RRes Unit)
    (net : NetOracles) (hookRes : RRes Unit) : RRes Unit × RegistryState :=
  match asset.verify (some chain) net with
  | .err e => (.err e, s)
  | .ok _ =>
    if fhExists s asset then (.err ["updates are not allowed"], s)
    else if fhNsExists s asset then
      (.err ["another asset is already registered with this entity/ticker"], s)
    else
      let s2 := fhWrite s asset
      match hookRes with
      | .ok _ => (.ok (), s2)
      | .err e => (.err ("hook script failed" :: e), fhDelete s2 asset)

/-- `Registry::delete`: verify the deletion signature, require the record to
exist, remove the files, then run the hook — surfacing a hook failure
without restoring the files. -/
def Registry.delete (s : RegistryState) (asset : Asset) (signature : List Nat)
    (ec : EcVerify) (hookRes : RRes Unit) : RRes Unit × RegistryState :=
  match asset.verify_deletion signature ec with
  | .err e => (.err e, s)
  | .ok _ =>
    if fhExists s asset = false then (.err ["asset does not exists"], s)
    else
      let s2 := fhDelete s asset
      match hookRes with
      | .ok _ => (.ok (), s2)
      | .err e => (.err ("hook script failed" :: e), s2)

/-! ## The namespace-uniqueness invariant -/

/-- A well-formed asset id: 32 bytes. -/
def validId (bs : List Nat) : Prop := bs.length = 32 ∧ ∀ b ∈ bs, b < 256

/-- The registry invariant: every record file is named after the id of the
record it holds, file names are unique, stored ids are well-formed 32-byte
hashes, and every stored record carrying a ticker owns its namespace-claim
file (which names that record's asset id). -/
def RegInv (s : RegistryState) : Prop :=
  (∀ p ∈ s.assetFiles, p.1 = assetFileName p.2 ∧ validId p.2.asset_id) ∧
  (s.assetFiles.map Prod.fst).Nodup ∧
  (∀ p ∈ s.assetFiles, ∀ k, nsPath p.2 = some k →
     alookup k s.nsFiles = some (toHexRev p.2.asset_id))

/-- The namespace-uniqueness property claimed by the spec: stored records
with distinct asset ids that both carry a ticker have distinct namespace
keys. -/
def nsUnique (s : RegistryState) : Prop :=
  ∀ p ∈ s.assetFiles, ∀ q ∈ s.assetFiles,
    p.2.asset_id ≠ q.2.asset_id →
    ∀ kp kq, nsPath p.2 = some kp → nsPath q.2 = some kq → kp ≠ kq

/-! ## Concrete fixtures used by the witnesses -/

/-- A chain oracle that accepts every issuance. -/
def trivChain : Asset → RRes Unit := fun _ => .ok ()

/-- Network oracles whose HTTP proof always verifies and whose DNS always
answers nothing. -/
def trivNet : NetOracles := ⟨fun _ _ => .ok (), fun _ => none⟩

def goodPrevout : OutPoint := ⟨List.replicate 32 0, 0⟩

def goodTxin : TxInput := ⟨List.replicate 32 0, 0⟩

def goodPk : List Nat := 2 :: List.replicate 32 17

def goodPkHex : String :=
  "021111111111111111111111111111111111111111111111111111111111111111"

def goodContractT : Json := .mkObj [
  ("entity", .mkObj [("domain", .str "foo.com")]),
  ("issuer_pubkey", .str goodPkHex),
  ("name", .str "Foo"),
  ("ticker", .str "FOO"),
  ("version", .num 0)]

def goodFieldsT : AssetFields :=
  ⟨0, goodPk, "Foo", some "FOO", none, 0, .DomainName "foo.com"⟩

/-- A fully well-formed ticker-carrying asset whose id is the derived
commitment. -/
def goodAssetT : Asset :=
  { asset_id := fromHexRev "e708e2a76c10a5632996cb9d872a6320580643d27080cd51f88dc4a06472690d"
    contract := goodContractT
    issuance_txin := goodTxin
    issuance_prevout := goodPrevout
    domain_verification_method := none
    fields := goodFieldsT
    signature := none }

def goodContractT2 : Json := .mkObj [
  ("entity", .mkObj [("domain", .str "foo.com")]),
  ("issuer_pubkey", .str goodPkHex),
  ("name", .str "Bar"),
  ("ticker", .str "FOO"),
  ("version", .num 0)]

/-- A second well-formed asset claiming the same `FOO@domain:foo.com`
namespace with a different asset id. -/
def goodAssetT2 : Asset :=
  { asset_id := fromHexRev "b3f5094e13e3c61d279d5e46dfc0a644e2dc58fe8b8308d5eb352e338b114391"
    contract := goodContractT2
    issuance_txin := goodTxin
    issuance_prevout := goodPrevout
    domain_verification_method := none
    fields := ⟨0, goodPk, "Bar", some "FOO", none, 0, .DomainName "foo.com"⟩
    signature := none }

def goodContractN : Json := .mkObj [
  ("entity", .mkObj [("domain", .str "foo.com")]),
  ("issuer_pubkey", .str goodPkHex),
  ("name", .str "Qux"),
  ("version", .num 0)]

/-- A well-formed ticker-less asset under the same entity. -/
def goodAssetN : Asset :=
  { asset_id := fromHexRev "d193fbcdf8bbaadc82793a9baa4d8b681f23ce739d467f6f194e67ace8bf5333"
    contract := goodContractN
    issuance_txin := goodTxin
    issuance_prevout := goodPrevout
    domain_verification_method := none
    fields := ⟨0, goodPk, "Qux", none, none, 0, .DomainName "foo.com"⟩
    signature := none }

/-- `goodAssetT` with a wrong asset id (all zeros). -/
def badIdAsset : Asset :=
  { goodAssetT with asset_id := List.replicate 32 0 }

/-- `goodAssetT` carrying a (legacy) signature field. -/
def signedAsset : Asset :=
  { goodAssetT with signature := some "c2ln" }

/-- Concatenation of JSON object entry lists. -/
def JsonObj.append : JsonObj → JsonObj → JsonObj
  | .nil, o => o
  | .cons k v t, o => .cons k v (t.append o)

/-- `goodContractT` with a stray key `foo` inserted (unknown to the
`AssetFields` schema). -/
def strayContract : Json := .mkObj [
  ("entity", .mkObj [("domain", .str "foo.com")]),
  ("foo", .str "bar"),
  ("issuer_pubkey", .str goodPkHex),
  ("name", .str "Foo"),
  ("ticker", .str "FOO"),
  ("version", .num 0)]

/-- `goodAssetT` re-pointed at the stray-key contract (the consistency check
`verify_asset_fields` does not look at the asset id, so the id is
irrelevant here). -/
def strayAsset : Asset := { goodAssetT with contract := strayContract }

/-- A TXT record carrying exactly the verification string expected for
`goodAssetT`. -/
def dnsRec : TxtRecord :=
  ⟨"foo.com", 16, 300,
   "liquid-asset-verification=" ++ toHexRev goodAssetT.asset_id ++ "," ++ "FOO"⟩

/-- A DNS oracle answering only for the apex `foo.com`. -/
def goodDns : String → Option (List TxtRecord) :=
  fun q => if q = "foo.com" then some [dnsRec] else none

/-- The empty registry. -/
def regS0 : RegistryState := ⟨[], []⟩

/-- The registry holding exactly `goodAssetT`. -/
def regS1 : RegistryState := fhWrite regS0 goodAssetT

/-- An EC oracle that accepts every signature (standing for a deletion
signature that libsecp256k1 accepts). -/
def trivEc : EcVerify := fun _ _ _ => true

@[simp] theorem RRes.ctx_ok {α : Type} (c : String) (a : α) :
    RRes.ctx c (.ok a) = .ok a := rfl

@[simp] theorem RRes.ctx_err {α : Type} (c : String) (e : List String) :
    RRes.ctx c (.err e : RRes α) = .err (c :: e) := rfl

@[simp] theorem RRes.bind_ok {α β : Type} (a : α) (f : α → RRes β) :
    RRes.bind (.ok a) f = f a := rfl

@[simp] theorem RRes.bind_err {α β : Type} (e : List String) (f : α → RRes β) :
    RRes.bind (.err e) f = .err e := rfl

@[simp] theorem alookup_nil {β : Type} (k : String) : alookup k ([] : List (String × β)) = none := rfl

theorem alookup_cons {β : Type} (k : String) (p : String × β) (t : List (String × β)) :
    alookup k (p :: t) = if p.1 = k then some p.2 else alookup k t := rfl

theorem aerase_cons_self {β : Type} (k : String) (v : β) (t : List (String × β)) :
    aerase k ((k, v) :: t) = t := by simp [aerase]

theorem alookup_aerase_ne {β : Type} (k k2 : String) (l : List (String × β)) (h : k2 ≠ k) :
    alookup k2 (aerase k l) = alookup k2 l := by
  induction l with
  | nil => rfl
  | cons p t ih =>
    by_cases hp : p.1 = k
    · have hne : p.1 ≠ k2 := by rw [hp]; exact fun he => h he.symm
      rw [aerase, if_pos hp, alookup_cons, if_neg hne]
    · rw [aerase, if_neg hp, alookup_cons, alookup_cons, ih]

theorem alookup_mem {β : Type} {k : String} {v : β} {l : List (String × β)}
    (h : alookup k l = some v) : (k, v) ∈ l := by
  induction l with
  | nil => simp [alookup] at h
  | cons p t ih =>
    rw [alookup_cons] at h
    by_cases hp : p.1 = k
    · simp [hp] at h
      exact List.mem_cons.mpr (Or.inl (by cases p; simp_all))
    · simp [hp] at h
      exact List.mem_cons_of_mem _ (ih h)

theorem mem_aerase {β : Type} {p : String × β} {k : String} {l : List (String × β)}
    (h : p ∈ aerase k l) : p ∈ l := by
  induction l with
  | nil => simp [aerase] at h
  | cons q t ih =>
    by_cases hq : q.1 = k
    · rw [aerase, if_pos hq] at h
      exact List.mem_cons_of_mem _ h
    · rw [aerase, if_neg hq] at h
      rcases List.mem_cons.mp h with h | h
      · exact h ▸ List.mem_cons_self _ _
      · exact List.mem_cons_of_mem _ (ih h)

theorem RRes.ensureP_pos {p : Prop} [Decidable p] (msg : String) (h : p) :
    RRes.ensureP p msg = .ok () := by simp [RRes.ensureP, h]

theorem RRes.ensureP_neg {p : Prop} [Decidable p] (msg : String) (h : ¬p) :
    RRes.ensureP p msg = .err [msg] := by simp [RRes.ensureP, h]

theorem RRes.ensureP_ok_iff {p : Prop} [Decidable p] (msg : String) :
    RRes.ensureP p msg = .ok () ↔ p := by
  by_cases h : p <;> simp [RRes.ensureP, h]

/-! ## Supporting lemmas -/

theorem RRes.monadBindDef {α β : Type} (x : RRes α) (f : α → RRes β) :
    x >>= f = RRes.bind x f := rfl

theorem RRes.monadPureDef {α : Type} (a : α) : (pure a : RRes α) = .ok a := rfl

theorem RRes.bind_eq_ok {α β : Type} {x : RRes α} {f : α → RRes β} {b : β} :
    RRes.bind x f = .ok b ↔ ∃ a, x = .ok a ∧ f a = .ok b := by
  cases x <;> simp [RRes.bind]

theorem RRes.ctx_ok_iff {α : Type} {c : String} {x : RRes α} {a : α} :
    RRes.ctx c x = .ok a ↔ x = .ok a := by
  cases x <;> simp [RRes.ctx]

theorem hexDigit_inj : ∀ a, a < 16 → ∀ b, b < 16 → hexDigit a = hexDigit b → a = b := by decide

theorem hexChars_inj : ∀ {a b : List Nat}, (∀ x ∈ a, x < 256) → (∀ x ∈ b, x < 256) →
    hexChars a = hexChars b → a = b
  | [], [], _, _, _ => rfl
  | [], y :: t, _, _, h => by simp [hexChars] at h
  | x :: s, [], _, _, h => by simp [hexChars] at h
  | x :: s, y :: t, ha, hb, h => by
    simp only [hexChars, List.cons.injEq] at h
    have hx : x < 256 := ha x (List.mem_cons_self _ _)
    have hy : y < 256 := hb y (List.mem_cons_self _ _)
    have h1 : x / 16 = y / 16 :=
      hexDigit_inj _ (Nat.div_lt_of_lt_mul (by omega)) _ (Nat.div_lt_of_lt_mul (by omega)) h.1
    have h2 : x % 16 = y % 16 :=
      hexDigit_inj _ (Nat.mod_lt _ (by norm_num)) _ (Nat.mod_lt _ (by norm_num)) h.2.1
    have hxy : x = y := by omega
    have ht : s = t := hexChars_inj (fun z hz => ha z (List.mem_cons_of_mem _ hz))
      (fun z hz => hb z (List.mem_cons_of_mem _ hz)) h.2.2
    rw [hxy, ht]

theorem toHexRev_inj {a b : List Nat} (ha : ∀ x ∈ a, x < 256) (hb : ∀ x ∈ b, x < 256)
    (h : toHexRev a = toHexRev b) : a = b := by
  have h2 : hexChars a.reverse = hexChars b.reverse := by
    have := congrArg String.data h
    simpa [toHexRev, bytesToHex] using this
  have h3 : a.reverse = b.reverse :=
    hexChars_inj (fun x hx => ha x (List.mem_reverse.mp hx))
      (fun x hx => hb x (List.mem_reverse.mp hx)) h2
  simpa using congrArg List.reverse h3

theorem sha256Round_length {st : List Nat} (kw : Nat) (h : st.length = 8) :
    (sha256Round st kw).length = 8 := by
  unfold sha256Round
  split <;> simp_all

theorem foldl_sha256Round_length (ws : List Nat) :
    ∀ st : List Nat, st.length = 8 → (ws.foldl sha256Round st).length = 8 := by
  induction ws with
  | nil => intro st h; simpa using h
  | cons w t ih =>
    intro st h
    exact ih _ (sha256Round_length w h)

theorem sha256Compress_length {h block : List Nat} (hh : h.length = 8) :
    (sha256Compress h block).length = 8 := by
  unfold sha256Compress
  rw [List.length_map, List.length_zip, foldl_sha256Round_length _ _ hh, hh]
  simp

theorem wordsToBytes_length (ws : List Nat) : (wordsToBytes ws).length = 4 * ws.length := by
  induction ws with
  | nil => rfl
  | cons w t ih => simp [wordsToBytes, be32, ih]; omega

theorem mem_wordsToBytes_lt (ws : List Nat) : ∀ b ∈ wordsToBytes ws, b < 256 := by
  induction ws with
  | nil => simp [wordsToBytes]
  | cons w t ih =>
    intro b hb
    simp only [wordsToBytes, be32, List.mem_append, List.mem_cons] at hb
    rcases hb with h | h
    · rcases h with h | h | h | h | h
      all_goals first
        | (rw [h]; exact Nat.mod_lt _ (by norm_num))
        | simp at h
    · exact ih b h

theorem sha256IV_length : sha256IV.length = 8 := rfl

theorem validId_fast_merkle_root2 (l r : List Nat) : validId (fast_merkle_root2 l r) := by
  constructor
  · rw [fast_merkle_root2, wordsToBytes_length, sha256Compress_length sha256IV_length]
  · exact mem_wordsToBytes_lt _

theorem validId_from_entropy (e : List Nat) : validId (from_entropy e) :=
  validId_fast_merkle_root2 _ _

theorem validId_derivedAssetId (a : Asset) : validId (derivedAssetId a) := by
  unfold derivedAssetId derivedIdFrom
  exact validId_from_entropy _

theorem alookup_eq_none {β : Type} {k : String} {l : List (String × β)} :
    alookup k l = none ↔ k ∉ l.map Prod.fst := by
  induction l with
  | nil => simp
  | cons p t ih =>
    rw [alookup_cons, List.map_cons]
    by_cases hp : p.1 = k
    · simp [hp]
    · rw [if_neg hp, ih, List.mem_cons]
      constructor
      · intro h hk
        rcases hk with hk | hk
        · exact hp hk.symm
        · exact h hk
      · intro h hk
        exact h (Or.inr hk)

theorem aerase_sublist {β : Type} (k : String) (l : List (String × β)) :
    (aerase k l).Sublist l := by
  induction l with
  | nil => simp [aerase]
  | cons p t ih =>
    rw [aerase]
    by_cases hp : p.1 = k
    · rw [if_pos hp]
      exact List.sublist_cons_self p t
    · rw [if_neg hp]
      exact List.Sublist.cons₂ p ih

theorem nodup_keys_aerase {β : Type} {k : String} {l : List (String × β)}
    (h : (l.map Prod.fst).Nodup) : ((aerase k l).map Prod.fst).Nodup :=
  h.sublist ((aerase_sublist k l).map Prod.fst)

theorem mem_aerase_ne_key {β : Type} : ∀ {l : List (String × β)} {p : String × β} {k : String},
    (l.map Prod.fst).Nodup → p ∈ aerase k l → p.1 ≠ k
  | [], p, k, _, hp => by simp [aerase] at hp
  | q :: t, p, k, hnd, hp => by
    rw [aerase] at hp
    rw [List.map_cons, List.nodup_cons] at hnd
    by_cases hq : q.1 = k
    · rw [if_pos hq] at hp
      intro hpk
      exact hnd.1 (hq ▸ hpk ▸ List.mem_map_of_mem Prod.fst hp)
    · rw [if_neg hq] at hp
      rcases List.mem_cons.mp hp with h | h
      · rw [h]; exact hq
      · exact mem_aerase_ne_key hnd.2 h

/-! ### Symbolic evaluation of the registry transactions -/

theorem Registry.write_eval_verify_err {s : RegistryState} {a : Asset}
    {chain : Asset → RRes Unit} {net : NetOracles} {hookRes : RRes Unit} {e : List String}
    (hv : Asset.verify a (some chain) net = .err e) :
    Registry.write s a chain net hookRes = (.err e, s) := by
  unfold Registry.write
  rw [hv]

theorem Registry.write_eval_exists {s : RegistryState} {a : Asset}
    {chain : Asset → RRes Unit} {net : NetOracles} {hookRes : RRes Unit}
    (hv : Asset.verify a (some chain) net = .ok ())
    (he : fhExists s a = true) :
    Registry.write s a chain net hookRes = (.err ["updates are not allowed"], s) := by
  unfold Registry.write
  rw [hv]
  simp [he]

theorem Registry.write_eval_ns {s : RegistryState} {a : Asset}
    {chain : Asset → RRes Unit} {net : NetOracles} {hookRes : RRes Unit}
    (hv : Asset.verify a (some chain) net = .ok ())
    (he : fhExists s a = false) (hns : fhNsExists s a = true) :
    Registry.write s a chain net hookRes =
      (.err ["another asset is already registered with this entity/ticker"], s) := by
  unfold Registry.write
  rw [hv]
  simp [he, hns]

theorem Registry.write_eval_ok {s : RegistryState} {a : Asset}
    {chain : Asset → RRes Unit} {net : NetOracles}
    (hv : Asset.verify a (some chain) net = .ok ())
    (he : fhExists s a = false) (hns : fhNsExists s a = false) :
    Registry.write s a chain net (.ok ()) = (.ok (), fhWrite s a) := by
  unfold Registry.write
  rw [hv]
  simp [he, hns]

/-- Rolling back a fresh write restores the exact pre-write state. -/
theorem fhExists_false_lookup {s : RegistryState} {a : Asset}
    (he : fhExists s a = false) : alookup (assetFileName a) s.assetFiles = none := by
  cases halk : alookup (assetFileName a) s.assetFiles with
  | none => rfl
  | some v => rw [fhExists, halk] at he; simp at he

theorem fhNsExists_false_lookup {s : RegistryState} {a : Asset} {k : String}
    (hnp : nsPath a = some k) (hns : fhNsExists s a = false) :
    alookup k s.nsFiles = none := by
  cases halk : alookup k s.nsFiles with
  | none => rfl
  | some v =>
    rw [fhNsExists, hnp] at hns
    simp [halk] at hns

/-- Rolling back a fresh write restores the exact pre-write state. -/
theorem fhDelete_fhWrite {s : RegistryState} {a : Asset}
    (he : fhExists s a = false) (hns : fhNsExists s a = false) :
    fhDelete (fhWrite s a) a = s := by
  cases s with
  | mk files ns =>
    cases hnp : nsPath a with
    | none =>
      simp only [fhDelete, fhWrite, hnp, fhExists]
      rw [alookup_cons]
      simp [aerase_cons_self]
    | some k =>
      have hns2 := fhNsExists_false_lookup hnp hns
      simp only [fhDelete, fhWrite, hnp, fhExists]
      rw [alookup_cons, alookup_cons]
      simp [aerase_cons_self]

theorem Registry.write_eval_hook_err {s : RegistryState} {a : Asset}
    {chain : Asset → RRes Unit} {net : NetOracles} {e : List String}
    (hv : Asset.verify a (some chain) net = .ok ())
    (he : fhExists s a = false) (hns : fhNsExists s a = false) :
    Registry.write s a chain net (.err e) = (.err ("hook script failed" :: e), s) := by
  unfold Registry.write
  rw [hv]
  simp [he, hns, fhDelete_fhWrite he hns]

theorem Registry.delete_eval_sig_err {s : RegistryState} {a : Asset}
    {sig : List Nat} {ec : EcVerify} {hookRes : RRes Unit} {e : List String}
    (hv : Asset.verify_deletion a sig ec = .err e) :
    Registry.delete s a sig ec hookRes = (.err e, s) := by
  unfold Registry.delete
  rw [hv]

theorem Registry.delete_eval_ok {s : RegistryState} {a : Asset}
    {sig : List Nat} {ec : EcVerify}
    (hv : Asset.verify_deletion a sig ec = .ok ())
    (he : fhExists s a = true) :
    Registry.delete s a sig ec (.ok ()) = (.ok (), fhDelete s a) := by
  unfold Registry.delete
  rw [hv]
  simp [he]

theorem Registry.delete_eval_hook_err {s : RegistryState} {a : Asset}
    {sig : List Nat} {ec : EcVerify} {e : List String}
    (hv : Asset.verify_deletion a sig ec = .ok ())
    (he : fhExists s a = true) :
    Registry.delete s a sig ec (.err e) =
      (.err ("hook script failed" :: e), fhDelete s a) := by
  unfold Registry.delete
  rw [hv]
  simp [he]

/-! ### Preservation of the registry invariant -/

theorem alookup_aerase_self {β : Type} : ∀ {l : List (String × β)} {k : String},
    (l.map Prod.fst).Nodup → alookup k (aerase k l) = none
  | [], k, _ => rfl
  | q :: t, k, hnd => by
    rw [List.map_cons, List.nodup_cons] at hnd
    rw [aerase]
    by_cases hq : q.1 = k
    · rw [if_pos hq, alookup_eq_none]
      exact fun hmem => hnd.1 (hq ▸ hmem)
    · rw [if_neg hq, alookup_cons, if_neg hq]
      exact alookup_aerase_self hnd.2

theorem RegInv_empty : RegInv ⟨[], []⟩ := by
  refine ⟨?_, ?_, ?_⟩ <;> simp [RegInv]

/-- A fresh, verified write preserves the registry invariant. -/
theorem RegInv_fhWrite {s : RegistryState} {a : Asset}
    (hInv : RegInv s) (hid : validId a.asset_id)
    (he : fhExists s a = false) (hns : fhNsExists s a = false) :
    RegInv (fhWrite s a) := by
  obtain ⟨hkeys, hnd, hcoup⟩ := hInv
  have he2 := fhExists_false_lookup he
  refine ⟨?_, ?_, ?_⟩
  · intro p hp
    rcases List.mem_cons.mp hp with h | h
    · rw [h]
      exact ⟨rfl, hid⟩
    · exact hkeys p h
  · rw [fhWrite, List.map_cons, List.nodup_cons]
    exact ⟨alookup_eq_none.mp he2, hnd⟩
  · intro p hp k hk
    rcases List.mem_cons.mp hp with h | h
    · rw [h] at hk ⊢
      simp only [fhWrite, hk]
      rw [alookup_cons]
      simp
    · have hold := hcoup p h k hk
      simp only [fhWrite]
      cases hnp : nsPath a with
      | none => exact hold
      | some k2 =>
        have hk2 := fhNsExists_false_lookup hnp hns
        have hne : k2 ≠ k := by
          intro heq
          rw [heq, hold] at hk2
          cases hk2
        rw [alookup_cons, if_neg hne]
        exact hold

/-- Deleting a stored record (passing the stored record itself, as the
server's delete handler does) preserves the registry invariant. -/
theorem RegInv_fhDelete {s : RegistryState} {a : Asset}
    (hInv : RegInv s) (hstored : alookup (assetFileName a) s.assetFiles = some a) :
    RegInv (fhDelete s a) := by
  obtain ⟨hkeys, hnd, hcoup⟩ := hInv
  have hmem : (assetFileName a, a) ∈ s.assetFiles := alookup_mem hstored
  have hexists : fhExists s a = true := by rw [fhExists, hstored]; rfl
  have hfiles : (fhDelete s a).assetFiles = aerase (assetFileName a) s.assetFiles := by
    simp [fhDelete, hexists]
  refine ⟨?_, ?_, ?_⟩
  · intro p hp
    rw [hfiles] at hp
    exact hkeys p (mem_aerase hp)
  · rw [hfiles]
    exact nodup_keys_aerase hnd
  · intro p hp k hk
    rw [hfiles] at hp
    have hpmem := mem_aerase hp
    have hpne : p.1 ≠ assetFileName a := mem_aerase_ne_key hnd hp
    have hold := hcoup p hpmem k hk
    show alookup k (fhDelete s a).nsFiles = some (toHexRev p.2.asset_id)
    simp only [fhDelete]
    cases hnp : nsPath a with
    | none => exact hold
    | some k2 =>
      have hacoup := hcoup (assetFileName a, a) hmem k2 hnp
      have hne : k ≠ k2 := by
        intro heq
        rw [heq] at hold
        rw [hold] at hacoup
        have hids : toHexRev p.2.asset_id = toHexRev a.asset_id := by
          injection hacoup
        have hp2 := hkeys p hpmem
        have ha2 := hkeys (assetFileName a, a) hmem
        have hpa : p.2.asset_id = a.asset_id := toHexRev_inj hp2.2.2 ha2.2.2 hids
        apply hpne
        rw [hp2.1, assetFileName, assetFileName, hpa]
      show alookup k (if (alookup k2 s.nsFiles).isSome then aerase k2 s.nsFiles
                      else s.nsFiles) = some (toHexRev p.2.asset_id)
      rw [hacoup]
      simp only [Option.isSome_some, if_true]
      rw [alookup_aerase_ne _ _ _ hne]
      exact hold

/-- The registry invariant implies the namespace-uniqueness property. -/
theorem RegInv_nsUnique {s : RegistryState} (hInv : RegInv s) : nsUnique s := by
  obtain ⟨hkeys, _, hcoup⟩ := hInv
  intro p hp q hq hneq kp kq hkp hkq heq
  have h1 := hcoup p hp kp hkp
  have h2 := hcoup q hq kq hkq
  rw [heq, h2] at h1
  have hids : toHexRev q.2.asset_id = toHexRev p.2.asset_id := by injection h1
  exact hneq (toHexRev_inj (hkeys p hp).2.2 (hkeys q hq).2.2 hids.symm)

/-- Decomposition of `Asset::verify`: success is exactly the success of all
five stages (the on-chain stage only when a `ChainQuery` is supplied). -/
theorem Asset.verify_ok_iff {a : Asset} {chain : Option (Asset → RRes Unit)} {net : NetOracles} :
    Asset.verify a chain net = .ok () ↔
      (a.fields.validate = .ok () ∧ verify_asset_commitment a = .ok () ∧
       verify_asset_fields a = .ok () ∧
       (∀ c, chain = some c → c a = .ok ()) ∧
       verify_asset_link a net = .ok ()) := by
  unfold Asset.verify
  cases hv : a.fields.validate with
  | err e => simp [RRes.monadBindDef, RRes.bind, hv]
  | ok u =>
    cases u
    cases hc : verify_asset_commitment a with
    | err e => simp [RRes.monadBindDef, RRes.bind, RRes.ctx, hc, hv]
    | ok u =>
      cases u
      cases hf : verify_asset_fields a with
      | err e => simp [RRes.monadBindDef, RRes.bind, RRes.ctx, hc, hf, hv]
      | ok u =>
        cases u
        cases chain with
        | none =>
          cases hl : verify_asset_link a net with
          | err e => simp [RRes.monadBindDef, RRes.bind, RRes.ctx, hc, hf, hl, hv]
          | ok u =>
            cases u
            simp [RRes.monadBindDef, RRes.bind, RRes.ctx, hc, hf, hl, hv]
        | some c =>
          cases hcc : c a with
          | err e => simp [RRes.monadBindDef, RRes.bind, RRes.ctx, hc, hf, hcc, hv]
          | ok u =>
            cases u
            cases hl : verify_asset_link a net with
            | err e => simp [RRes.monadBindDef, RRes.bind, RRes.ctx, hc, hf, hcc, hl, hv]
            | ok u =>
              cases u
              simp [RRes.monadBindDef, RRes.bind, RRes.ctx, hc, hf, hcc, hl, hv]

/-- A successful verification pins the asset id to the derived commitment. -/
theorem verify_ok_imp_commitment {a : Asset} {chain : Option (Asset → RRes Unit)}
    {net : NetOracles} (h : Asset.verify a chain net = .ok ()) :
    a.asset_id = derivedAssetId a := by
  have hc := (Asset.verify_ok_iff.mp h).2.1
  rw [verify_asset_commitment] at hc
  exact (RRes.ensureP_ok_iff _).mp hc

/-- When the field syntax is fine but the commitment is off, `Asset::verify`
fails with the wrapped commitment error. -/
theorem verify_err_of_commitment {a : Asset} {chain : Option (Asset → RRes Unit)}
    {net : NetOracles} (hv : a.fields.validate = .ok ())
    (hc : verify_asset_commitment a = .err ["invalid asset commitment"]) :
    Asset.verify a chain net =
      .err ["failed verifying issuance commitment", "invalid asset commitment"] := by
  unfold Asset.verify
  simp [RRes.monadBindDef, RRes.bind, RRes.ctx, hv, hc]

/-! ### Evaluated facts about the fixtures (shared across witnesses) -/

theorem lem_verify_goodAssetT :
    Asset.verify goodAssetT (some trivChain) trivNet = .ok () := by decide

theorem lem_verify_goodAssetT2 :
    Asset.verify goodAssetT2 (some trivChain) trivNet = .ok () := by decide

theorem lem_verify_goodAssetN :
    Asset.verify goodAssetN (some trivChain) trivNet = .ok () := by decide

theorem lem_badId_ne : badIdAsset.asset_id ≠ derivedAssetId badIdAsset := by decide

theorem lem_validate_goodAssetT : goodAssetT.fields.validate = .ok () :=
  (Asset.verify_ok_iff.mp lem_verify_goodAssetT).1

theorem lem_commitment_goodAssetT : verify_asset_commitment goodAssetT = .ok () :=
  (Asset.verify_ok_iff.mp lem_verify_goodAssetT).2.1

theorem lem_validId_goodAssetT : validId goodAssetT.asset_id := by
  rw [verify_ok_imp_commitment lem_verify_goodAssetT]
  exact validId_derivedAssetId _

theorem lem_fhExists_regS0 : fhExists regS0 goodAssetT = false := by decide

theorem lem_fhNsExists_regS0 : fhNsExists regS0 goodAssetT = false := by decide

theorem lem_RegInv_regS1 : RegInv regS1 :=
  RegInv_fhWrite RegInv_empty lem_validId_goodAssetT lem_fhExists_regS0 lem_fhNsExists_regS0

theorem lem_stored_goodAssetT :
    alookup (assetFileName goodAssetT) regS1.assetFiles = some goodAssetT := rfl

theorem lem_fhExists_regS1 : fhExists regS1 goodAssetT = true := by decide

theorem jlookup_append_skip (k2 k : String) (v : Json) (o2 : JsonObj) (h : k ≠ k2) :
    ∀ o1 : JsonObj,
      jlookup k2 (o1.append (.cons k v o2)) = jlookup k2 (o1.append o2)
  | .nil => by simp [JsonObj.append, jlookup, h]
  | .cons k3 v3 t => by
    simp only [JsonObj.append, jlookup]
    rw [jlookup_append_skip k2 k v o2 h t]

/-! ## The claims -/

/-- C1: verification (`Asset::verify`, with or without a `ChainQuery`)
succeeds only if the record's `asset_id` equals the id derived by hashing the
canonical contract JSON with a single SHA-256, combining the resulting
contract hash with `issuance_prevout` into the asset entropy, and applying
the asset-tag function; and whenever the derived id differs,
`verify_asset_commitment` fails with `invalid asset commitment` (which
`Asset::verify` surfaces under its issuance-commitment context once the
field-syntax stage passes). -/
theorem C1_commitment_verification (a : Asset) (chain : Option (Asset → RRes Unit))
    (net : NetOracles) :
    (Asset.verify a chain net = .ok () → a.asset_id = derivedAssetId a) ∧
    (verify_asset_commitment a = .ok () ↔ a.asset_id = derivedAssetId a) ∧
    (a.asset_id ≠ derivedAssetId a →
      verify_asset_commitment a = .err ["invalid asset commitment"] ∧
      Asset.verify a chain net ≠ .ok () ∧
      (a.fields.validate = .ok () →
        Asset.verify a chain net =
          .err ["failed verifying issuance commitment", "invalid asset commitment"])) := by
  have hceq : verify_asset_commitment a =
      RRes.ensureP (a.asset_id = derivedAssetId a) "invalid asset commitment" := rfl
  refine ⟨fun h => verify_ok_imp_commitment h, ?_, ?_⟩
  · rw [hceq]
    exact RRes.ensureP_ok_iff _
  · intro hne
    have hc : verify_asset_commitment a = .err ["invalid asset commitment"] := by
      rw [hceq]
      exact RRes.ensureP_neg _ hne
    exact ⟨hc, fun hok => hne (verify_ok_imp_commitment hok),
      fun hv => verify_err_of_commitment hv hc⟩

/-- C1 witness: `goodAssetT` (whose id is the derived commitment) passes full
verification, and flipping the id to all zeros makes the commitment check
fail with exactly `invalid asset commitment`. -/
theorem C1_commitment_verification_witness :
    Asset.verify goodAssetT (some trivChain) trivNet = .ok () ∧
    goodAssetT.asset_id = derivedAssetId goodAssetT ∧
    badIdAsset.asset_id ≠ derivedAssetId badIdAsset ∧
    verify_asset_commitment badIdAsset = .err ["invalid asset commitment"] :=
  ⟨lem_verify_goodAssetT,
   (C1_commitment_verification goodAssetT (some trivChain) trivNet).1 lem_verify_goodAssetT,
   lem_badId_ne,
   ((C1_commitment_verification badIdAsset (some trivChain) trivNet).2.2 lem_badId_ne).1⟩

/-- C2 counterexample: the claim says a contract with a key other than the
seven recognized ones is rejected by `AssetFields::from_contract`; in fact
the derived serde deserializer carries no `deny_unknown_fields`, so
`strayContract` (which adds the key `foo`) parses fine — and the
fields-vs-contract consistency check accepts the record built on it. -/
theorem C2_strict_deserialization_counterexample :
    AssetFields.from_contract strayContract = .ok goodFieldsT ∧
    verify_asset_fields strayAsset = .ok () :=
  ⟨by decide, by decide⟩

/-- C2 amended: `AssetFields::from_contract` uses serde's default,
non-strict deserialization — a key other than `version`, `issuer_pubkey`,
`name`, `ticker`, `collection`, `precision`, `entity` is ignored, leaving
the parse result unchanged, so neither `Asset::validate_contract` nor the
fields-vs-contract consistency check rejects a contract for carrying an
unknown field (such a field still changes the contract hash, and hence the
committed asset id, but not the parsed fields). -/
theorem C2_unknown_fields_ignored (o1 o2 : JsonObj) (k : String) (v : Json)
    (h : k ∉ ["version", "issuer_pubkey", "name", "ticker", "collection", "precision", "entity"]) :
    AssetFields.from_contract (.obj (o1.append (.cons k v o2))) =
      AssetFields.from_contract (.obj (o1.append o2)) := by
  simp only [List.mem_cons, List.not_mem_nil, or_false] at h
  push_neg at h
  obtain ⟨h1, h2, h3, h4, h5, h6, h7⟩ := h
  show fromContractCore _ _ _ _ _ _ _ = fromContractCore _ _ _ _ _ _ _
  rw [jlookup_append_skip "version" k v o2 h1 o1,
      jlookup_append_skip "issuer_pubkey" k v o2 h2 o1,
      jlookup_append_skip "name" k v o2 h3 o1,
      jlookup_append_skip "ticker" k v o2 h4 o1,
      jlookup_append_skip "collection" k v o2 h5 o1,
      jlookup_append_skip "precision" k v o2 h6 o1,
      jlookup_append_skip "entity" k v o2 h7 o1]

/-- C2 witness: inserting the stray key `foo` into `goodContractT`'s entry
list leaves `from_contract` unchanged. -/
theorem C2_unknown_fields_ignored_witness :
    AssetFields.from_contract
      (.obj ((JsonObj.ofList [("entity", Json.mkObj [("domain", Json.str "foo.com")])]).append
        (.cons "foo" (.str "bar")
          (JsonObj.ofList [("issuer_pubkey", .str goodPkHex), ("name", .str "Foo"),
                           ("ticker", .str "FOO"), ("version", .num 0)])))) =
    AssetFields.from_contract
      (.obj ((JsonObj.ofList [("entity", Json.mkObj [("domain", Json.str "foo.com")])]).append
        (JsonObj.ofList [("issuer_pubkey", .str goodPkHex), ("name", .str "Foo"),
                         ("ticker", .str "FOO"), ("version", .num 0)]))) :=
  C2_unknown_fields_ignored _ _ "foo" _ (by decide)

/-- C3 counterexample: the claim says the domain validator rejects every
input with an uppercase or non-ASCII character, in particular `foO.com` and
`δοκιμή.com`; in fact `is_valid_domain` IDNA-normalizes its input first and
accepts both (the repository's own unit test asserts the latter). -/
theorem C3_domain_case_counterexample :
    is_valid_domain "foO.com" = true ∧ is_valid_domain "δοκιμή.com" = true :=
  ⟨by decide, by decide⟩

/-- C3 amended: uppercase and non-ASCII characters do not cause rejection —
the domain is first converted by UTS #46 IDNA processing (lowercasing ASCII
and Punycode-encoding non-ASCII labels) and validity is decided on the
converted form; `foO.com` normalizes to `foo.com`, `δοκιμή.com` to
`xn--jxalpdlp.com`, and all of `foO.com`, `δοκιμή.com` and
`xn--jxalpdlp.com` are accepted. -/
theorem C3_domain_idna_normalization :
    idna_to_ascii "foO.com" = some "foo.com".data ∧
    idna_to_ascii "δοκιμή.com" = some "xn--jxalpdlp.com".data ∧
    is_valid_domain "foO.com" = true ∧
    is_valid_domain "δοκιμή.com" = true ∧
    is_valid_domain "xn--jxalpdlp.com" = true :=
  ⟨by decide, by decide, by decide, by decide, by decide⟩

/-- C4: namespace uniqueness is an invariant preserved by the registry
operations — under the registry invariant, any two stored records with
distinct asset ids that both carry a ticker have distinct namespace keys
`ticker ++ "@" ++ entity`; the invariant is preserved by `Registry::write`
(unconditionally) and by `Registry::delete` when the passed record is the
stored one (which is how the server's delete handler invokes it, loading the
record from the registry first); a verified write whose namespace-claim file
already exists is refused with
`another asset is already registered with this entity/ticker`; and a
ticker-less verified write is accepted regardless of the namespace map, so
any number of ticker-less records may share an entity. -/
theorem C4_namespace_uniqueness :
    (∀ s, RegInv s → nsUnique s) ∧
    (∀ s a (chain : Asset → RRes Unit) (net : NetOracles) (hookRes : RRes Unit),
       RegInv s → RegInv (Registry.write s a chain net hookRes).2) ∧
    (∀ s a (sig : List Nat) (ec : EcVerify) (hookRes : RRes Unit),
       RegInv s → alookup (assetFileName a) s.assetFiles = some a →
       RegInv (Registry.delete s a sig ec hookRes).2) ∧
    (∀ s a (chain : Asset → RRes Unit) (net : NetOracles) (hookRes : RRes Unit),
       Asset.verify a (some chain) net = .ok () → fhExists s a = false →
       fhNsExists s a = true →
       Registry.write s a chain net hookRes =
         (.err ["another asset is already registered with this entity/ticker"], s)) ∧
    (∀ s a (chain : Asset → RRes Unit) (net : NetOracles),
       a.fields.ticker = none → Asset.verify a (some chain) net = .ok () →
       fhExists s a = false →
       Registry.write s a chain net (.ok ()) = (.ok (), fhWrite s a)) := by
  refine ⟨fun s hInv => RegInv_nsUnique hInv, ?_, ?_, ?_, ?_⟩
  · intro s a chain net hookRes hInv
    cases hv : Asset.verify a (some chain) net with
    | err e => rw [Registry.write_eval_verify_err hv]; exact hInv
    | ok u =>
      cases u
      cases he : fhExists s a with
      | true => rw [Registry.write_eval_exists hv he]; exact hInv
      | false =>
        cases hns : fhNsExists s a with
        | true => rw [Registry.write_eval_ns hv he hns]; exact hInv
        | false =>
          have hid : validId a.asset_id := by
            rw [verify_ok_imp_commitment hv]
            exact validId_derivedAssetId a
          cases hookRes with
          | ok u2 =>
            cases u2
            rw [Registry.write_eval_ok hv he hns]
            exact RegInv_fhWrite hInv hid he hns
          | err e =>
            rw [Registry.write_eval_hook_err hv he hns]
            exact hInv
  · intro s a sig ec hookRes hInv hstored
    cases hv : Asset.verify_deletion a sig ec with
    | err e => rw [Registry.delete_eval_sig_err hv]; exact hInv
    | ok u =>
      cases u
      have he : fhExists s a = true := by rw [fhExists, hstored]; rfl
      cases hookRes with
      | ok u2 =>
        cases u2
        rw [Registry.delete_eval_ok hv he]
        exact RegInv_fhDelete hInv hstored
      | err e =>
        rw [Registry.delete_eval_hook_err hv he]
        exact RegInv_fhDelete hInv hstored
  · intro s a chain net hookRes hv he hns
    exact Registry.write_eval_ns hv he hns
  · intro s a chain net ht hv he
    have hnp : nsPath a = none := by simp [nsPath, make_unique_ns_filename, ht]
    have hns : fhNsExists s a = false := by rw [fhNsExists, hnp]
    exact Registry.write_eval_ok hv he hns

/-- C4 witness: in the registry holding `goodAssetT` (ticker `FOO` at
`foo.com`), uniqueness holds; a write of `goodAssetN` and a delete of the
stored record preserve the invariant; writing `goodAssetT2` (a different id
claiming the same `FOO@domain:foo.com` namespace) is refused with the exact
error; and the ticker-less `goodAssetN` is accepted. -/
theorem C4_namespace_uniqueness_witness :
    nsUnique regS1 ∧
    RegInv (Registry.write regS1 goodAssetN trivChain trivNet (.ok ())).2 ∧
    RegInv (Registry.delete regS1 goodAssetT (List.replicate 64 1) trivEc (.ok ())).2 ∧
    Registry.write regS1 goodAssetT2 trivChain trivNet (.ok ()) =
      (.err ["another asset is already registered with this entity/ticker"], regS1) ∧
    Registry.write regS1 goodAssetN trivChain trivNet (.ok ()) =
      (.ok (), fhWrite regS1 goodAssetN) :=
  ⟨C4_namespace_uniqueness.1 regS1 lem_RegInv_regS1,
   C4_namespace_uniqueness.2.1 regS1 goodAssetN trivChain trivNet (.ok ()) lem_RegInv_regS1,
   C4_namespace_uniqueness.2.2.1 regS1 goodAssetT (List.replicate 64 1) trivEc (.ok ())
     lem_RegInv_regS1 lem_stored_goodAssetT,
   C4_namespace_uniqueness.2.2.2.1 regS1 goodAssetT2 trivChain trivNet (.ok ())
     lem_verify_goodAssetT2 (by decide) (by decide),
   C4_namespace_uniqueness.2.2.2.2 regS1 goodAssetN trivChain trivNet rfl
     lem_verify_goodAssetN (by decide)⟩

/-- C5: the store is append-only — when the record file for the asset
already exists, `Registry::write` leaves the stored state untouched on every
path, and (once verification passes, which runs first) returns exactly the
error `updates are not allowed`. -/
theorem C5_append_only (s : RegistryState) (a : Asset) (chain : Asset → RRes Unit)
    (net : NetOracles) (hookRes : RRes Unit) (he : fhExists s a = true) :
    (Registry.write s a chain net hookRes).2 = s ∧
    (Asset.verify a (some chain) net = .ok () →
      Registry.write s a chain net hookRes = (.err ["updates are not allowed"], s)) := by
  constructor
  · cases hv : Asset.verify a (some chain) net with
    | err e => rw [Registry.write_eval_verify_err hv]
    | ok u =>
      cases u
      rw [Registry.write_eval_exists hv he]
  · intro hv
    exact Registry.write_eval_exists hv he

/-- C5 witness: rewriting the already-registered `goodAssetT` fails with
`updates are not allowed` and leaves the registry exactly as it was. -/
theorem C5_append_only_witness :
    Registry.write regS1 goodAssetT trivChain trivNet (.ok ()) =
      (.err ["updates are not allowed"], regS1) ∧
    (Registry.write regS1 goodAssetT trivChain trivNet (.ok ())).2 = regS1 :=
  ⟨(C5_append_only regS1 goodAssetT trivChain trivNet (.ok ()) lem_fhExists_regS1).2
     lem_verify_goodAssetT,
   (C5_append_only regS1 goodAssetT trivChain trivNet (.ok ()) lem_fhExists_regS1).1⟩

/-- C6: registration is atomic with respect to hook failure — when a fresh,
verified write runs its post-write hook and the hook fails, the just-written
record file and namespace-claim file are deleted again, `write` returns the
hook error (under its `hook script failed` context), and the resulting
registry state equals the pre-write state exactly. -/
theorem C6_write_hook_rollback (s : RegistryState) (a : Asset)
    (chain : Asset → RRes Unit) (net : NetOracles) (e : List String)
    (hv : Asset.verify a (some chain) net = .ok ())
    (he : fhExists s a = false) (hns : fhNsExists s a = false) :
    Registry.write s a chain net (.err e) = (.err ("hook script failed" :: e), s) :=
  Registry.write_eval_hook_err hv he hns

/-- C6 witness: registering `goodAssetT` into the empty registry with a
failing hook returns the hook error and leaves the registry empty. -/
theorem C6_write_hook_rollback_witness :
    Registry.write regS0 goodAssetT trivChain trivNet (.err ["boom"]) =
      (.err ["hook script failed", "boom"], regS0) :=
  C6_write_hook_rollback regS0 goodAssetT trivChain trivNet ["boom"]
    lem_verify_goodAssetT lem_fhExists_regS0 lem_fhNsExists_regS0

/-- C7: deletion is not rolled back on hook failure — once the record and
namespace-claim files are removed, a failing hook makes `Registry::delete`
return the hook error (under its `hook script failed` context) while the
final state keeps the files removed: the record file no longer exists. -/
theorem C7_delete_no_rollback (s : RegistryState) (a : Asset) (sig : List Nat)
    (ec : EcVerify) (e : List String)
    (hnd : (s.assetFiles.map Prod.fst).Nodup)
    (hv : Asset.verify_deletion a sig ec = .ok ())
    (he : fhExists s a = true) :
    Registry.delete s a sig ec (.err e) =
      (.err ("hook script failed" :: e), fhDelete s a) ∧
    fhExists (fhDelete s a) a = false := by
  constructor
  · exact Registry.delete_eval_hook_err hv he
  · have hfiles : (fhDelete s a).assetFiles = aerase (assetFileName a) s.assetFiles := by
      simp [fhDelete, he]
    rw [fhExists, hfiles, alookup_aerase_self hnd]
    rfl

/-- C7 witness: deleting the stored `goodAssetT` with a failing hook
surfaces the hook error, yet the record file stays removed. -/
theorem C7_delete_no_rollback_witness :
    Registry.delete regS1 goodAssetT (List.replicate 64 1) trivEc (.err ["boom"]) =
      (.err ["hook script failed", "boom"], fhDelete regS1 goodAssetT) ∧
    fhExists (fhDelete regS1 goodAssetT) goodAssetT = false :=
  C7_delete_no_rollback regS1 goodAssetT (List.replicate 64 1) trivEc ["boom"]
    lem_RegInv_regS1.2.1 (by decide) lem_fhExists_regS1

/-- C8: with a `signature` field present, `verify_asset_fields` bails with
`updates are disabled`; `Asset::verify` therefore never accepts an asset
carrying a signature, and once the field-syntax and commitment checks pass
the surfaced error is exactly the wrapped `updates are disabled`. -/
theorem C8_updates_disabled (a : Asset) (chain : Option (Asset → RRes Unit))
    (net : NetOracles) (sig : String) (hsig : a.signature = some sig) :
    verify_asset_fields a = .err ["updates are disabled"] ∧
    Asset.verify a chain net ≠ .ok () ∧
    (a.fields.validate = .ok () → verify_asset_commitment a = .ok () →
      Asset.verify a chain net = .err ["failed verifying asset fields", "updates are disabled"]) := by
  have hf : verify_asset_fields a = .err ["updates are disabled"] := by
    unfold verify_asset_fields
    rw [hsig]
  refine ⟨hf, ?_, ?_⟩
  · intro hok
    have hfo := (Asset.verify_ok_iff.mp hok).2.2.1
    rw [hf] at hfo
    cases hfo
  · intro hv hc
    unfold Asset.verify
    simp [RRes.monadBindDef, RRes.bind, RRes.ctx, hv, hc, hf]

/-- C8 witness: `signedAsset` (the fully valid `goodAssetT` plus a legacy
signature) passes field syntax and the commitment check, yet verification
fails with `updates are disabled`. -/
theorem C8_updates_disabled_witness :
    signedAsset.signature = some "c2ln" ∧
    Asset.verify signedAsset (some trivChain) trivNet =
      .err ["failed verifying asset fields", "updates are disabled"] :=
  ⟨rfl,
   (C8_updates_disabled signedAsset (some trivChain) trivNet "c2ln" rfl).2.2
     lem_validate_goodAssetT lem_commitment_goodAssetT⟩

/-- C9: DNS entity-link verification queries the TXT records of the apex
domain built from exactly the last two labels of the supplied domain, and
(given at least two labels) succeeds iff the DNS answer exists and some
returned record's data equals exactly
`liquid-asset-verification={asset_id_hex},{ticker_or_empty}`; a one-label
domain and an absent `Answer` member are verification errors. -/
theorem C9_dns_apex_txt (a : Asset) (domain : String)
    (dns : String → Option (List TxtRecord)) :
    (2 ≤ (splitChar '.' domain.data).length →
      (verify_domain_link_dns a domain dns = .ok () ↔
        ∃ recs, dns (apexDomain domain) = some recs ∧
          ∃ r ∈ recs,
            r.data = "liquid-asset-verification=" ++ toHexRev a.asset_id ++ "," ++
              (a.fields.ticker.getD ""))) ∧
    ((splitChar '.' domain.data).length ≤ 1 →
      verify_domain_link_dns a domain dns = .err ["domain must have at least two labels"]) ∧
    (2 ≤ (splitChar '.' domain.data).length → dns (apexDomain domain) = none →
      verify_domain_link_dns a domain dns = .err ["Answer missing from response."]) := by
  refine ⟨?_, ?_, ?_⟩
  · intro h2
    unfold verify_domain_link_dns
    rw [if_neg (by omega)]
    cases hdns : dns (apexDomain domain) with
    | none =>
      simp [txt_lookup, hdns]
    | some recs =>
      simp only [txt_lookup, hdns]
      constructor
      · intro hok
        refine ⟨recs, rfl, ?_⟩
        by_cases hany : recs.any (fun r => decide (expectedDnsBody a = r.data)) = true
        · rcases List.any_eq_true.mp hany with ⟨r, hr, hrd⟩
          exact ⟨r, hr, (of_decide_eq_true hrd).symm⟩
        · rw [if_neg (by simpa using hany)] at hok
          cases hok
      · rintro ⟨recs2, hrecs2, r, hr, hrd⟩
        have hre : recs2 = recs := by
          injection hrecs2 with h
          exact h.symm
        rw [hre] at hr
        have hany : recs.any (fun r => decide (expectedDnsBody a = r.data)) = true :=
          List.any_eq_true.mpr ⟨r, hr, decide_eq_true (by rw [expectedDnsBody]; exact hrd.symm)⟩
        rw [if_pos (by simpa using hany)]
  · intro h1
    unfold verify_domain_link_dns
    rw [if_pos (by omega)]
  · intro h2 hdns
    unfold verify_domain_link_dns
    rw [if_neg (by omega)]
    simp [txt_lookup, hdns]

/-- C9 witness: for `sub.foo.com` the lookup hits the apex `foo.com` and
succeeds on the exact expected TXT record; a one-label domain errors; a
domain whose apex has no `Answer` errors. -/
theorem C9_dns_apex_txt_witness :
    verify_domain_link_dns goodAssetT "sub.foo.com" goodDns = .ok () ∧
    verify_domain_link_dns goodAssetT "localhost" goodDns =
      .err ["domain must have at least two labels"] ∧
    verify_domain_link_dns goodAssetT "a.b.nxdomain.example" goodDns =
      .err ["Answer missing from response."] :=
  ⟨((C9_dns_apex_txt goodAssetT "sub.foo.com" goodDns).1 (by decide)).mpr
     ⟨[dnsRec], by decide, dnsRec, by simp, by decide⟩,
   (C9_dns_apex_txt goodAssetT "localhost" goodDns).2.1 (by decide),
   (C9_dns_apex_txt goodAssetT "a.b.nxdomain.example" goodDns).2.2 (by decide) (by decide)⟩

/-- C10 (implicit behaviour): `verify_bitcoin_msg` strips a leading flag
byte only when the signature is exactly 65 bytes long; a bare 64-byte
compact signature is passed to the compact-signature parser unchanged and
verified directly, any other length fails, and `Asset::verify_deletion` is
exactly this check over the issuer pubkey and the deletion message — so a
valid 64-byte compact signature authorizes deletion just as well as the
65-byte signed-message format. -/
theorem C10_bare_compact_sig (ec : EcVerify) (pk sig : List Nat) (msg : String) :
    (sig.length = 64 →
      (verify_bitcoin_msg ec pk sig msg = .ok () ↔
        secpPubkeyParses pk = true ∧ ec pk sig (bitcoin_signed_msg_hash msg) = true)) ∧
    (sig.length = 65 →
      (verify_bitcoin_msg ec pk sig msg = .ok () ↔
        secpPubkeyParses pk = true ∧
          ec pk (sig.drop 1) (bitcoin_signed_msg_hash msg) = true)) ∧
    (sig.length ≠ 64 → sig.length ≠ 65 → verify_bitcoin_msg ec pk sig msg ≠ .ok ()) ∧
    (∀ a : Asset, Asset.verify_deletion a sig ec =
      verify_bitcoin_msg ec a.fields.issuer_pubkey sig (format_deletion_sig_msg a)) := by
  refine ⟨?_, ?_, ?_, fun _ => rfl⟩
  · intro h64
    have h65 : ¬(sig.length = 65) := by omega
    cases hp : secpPubkeyParses pk with
    | false => simp [verify_bitcoin_msg, h64, h65, hp]
    | true =>
      cases hec : ec pk sig (bitcoin_signed_msg_hash msg) with
      | false => simp [verify_bitcoin_msg, h64, h65, hp, hec]
      | true => simp [verify_bitcoin_msg, h64, h65, hp, hec]
  · intro h65
    cases hp : secpPubkeyParses pk with
    | false => simp [verify_bitcoin_msg, h65, hp]
    | true =>
      cases hec : ec pk sig.tail (bitcoin_signed_msg_hash msg) with
      | false => simp [verify_bitcoin_msg, h65, hp, List.drop_one, hec]
      | true => simp [verify_bitcoin_msg, h65, hp, List.drop_one, hec]
  · intro h64 h65
    cases hp : secpPubkeyParses pk with
    | false => simp [verify_bitcoin_msg, h64, h65, hp]
    | true => simp [verify_bitcoin_msg, h64, h65, hp]

/-- C10 witness: with the EC oracle accepting, a bare 64-byte compact
signature passes `verify_bitcoin_msg` unchanged and authorizes the deletion
of `goodAssetT`, while a 63-byte signature cannot. -/
theorem C10_bare_compact_sig_witness :
    verify_bitcoin_msg trivEc goodPk (List.replicate 64 1) "test" = .ok () ∧
    Asset.verify_deletion goodAssetT (List.replicate 64 1) trivEc = .ok () ∧
    verify_bitcoin_msg trivEc goodPk (List.replicate 63 1) "test" ≠ .ok () :=
  ⟨((C10_bare_compact_sig trivEc goodPk (List.replicate 64 1) "test").1 (by decide)).mpr
     ⟨by decide, rfl⟩,
   by
     rw [(C10_bare_compact_sig trivEc goodAssetT.fields.issuer_pubkey (List.replicate 64 1)
       (format_deletion_sig_msg goodAssetT)).2.2.2 goodAssetT]
     exact ((C10_bare_compact_sig trivEc goodAssetT.fields.issuer_pubkey (List.replicate 64 1)
       (format_deletion_sig_msg goodAssetT)).1 (by decide)).mpr ⟨by decide, rfl⟩,
   (C10_bare_compact_sig trivEc goodPk (List.replicate 63 1) "test").2.2.1
     (by decide) (by decide)⟩

/-! ## Fidelity checks of the embedding against the repository's own vectors -/

/-- FIPS 180-4 vectors for the SHA-256 embedding. -/
theorem sha256_fips_vectors :
    bytesToHex (sha256 []) =
      "e3b0c44298fc1c149afbf4c8996fb92427ae41e4649b934ca495991b7852b855" ∧
    bytesToHex (sha256 [97, 98, 99]) =
      "ba7816bf8f01cfea414140de5dae2223b00361a396177a9cb410ff61f20015ad" :=
  ⟨by decide, by decide⟩

/-- The `util.rs` unit-test vector `test_asset_entropy`: the entropy derived
from prevout `0a93…2fca:0` and the zero contract hash. -/
theorem asset_entropy_test_vector :
    toHexRev (generate_asset_entropy
      ⟨fromHexRev "0a93069bba360df60d77ecfff99304a9de123fecb8217348bb9d35f4a96d2fca", 0⟩
      (List.replicate 32 0)) =
    "b8c4a6b3bb81c57e08b3c3b42d682ed287f492da6575fffd81d98893d74418b6" := by decide

/-- The `util.rs` unit-test vector `test_asset_id`: the asset tag of the
entropy above. -/
theorem asset_tag_test_vector :
    toHexRev (from_entropy
      (fromHexRev "b8c4a6b3bb81c57e08b3c3b42d682ed287f492da6575fffd81d98893d74418b6")) =
    "ff6fa9c92fd6086523e11607f6ee8ba90406ccaf738c49bf667ae5ec93733276" := by decide

/-- The `server.rs` `test_validate_contract` vector: the canonical JSON and
single-SHA-256 contract hash of the `PPP coin` contract. -/
theorem ppp_contract_hash_test_vector :
    toHexRev (contract_json_hash (Json.mkObj
      [("entity", Json.mkObj [("domain", Json.str "test.dev")]),
       ("issuer_pubkey",
        Json.str "037c7db0528e8b7b58e698ac104764f6852d74b5a7335bffcdad0ce799dd7742ec"),
       ("name", Json.str "PPP coin"), ("ticker", Json.str "PPP"),
       ("version", Json.num 0)])) =
    "ac5a08996e50a12b38e2ad9e5e3ff2899db889b08422361d9fbed65d7b9c209b" := by decide

/-- The repository's `test_is_valid_domain` expectations, plus the Punycode
encoding underlying the IDNA conversion. -/
theorem is_valid_domain_test_vectors :
    is_valid_domain "foo.com" = true ∧
    is_valid_domain (String.mk [Char.ofNat 62] ++ "foo.com") = false ∧
    is_valid_domain ".foo.com" = false ∧
    is_valid_domain "localhost" = false ∧
    is_valid_domain "x.9" = false ∧
    is_valid_domain "9.com" = true ∧
    String.mk (punycodeEncode ("δοκιμή".data.map Char.toNat)) = "jxalpdlp" :=
  ⟨by decide, by decide, by decide, by decide, by decide, by decide, by decide⟩
